import Mathlib

/-!
# SignalHub pipeline orchestration: verification of the spec against the code

Shallow embedding of the pipeline-orchestration subsystem of the SignalHub
repository (`backend/app/pipeline_orchestrator.py`, `backend/app/live_mic.py`,
`backend/app/whisper_processor.py`) together with proofs of the spec claims.

Conventions used throughout:
* Python `dict`s keyed by strings are embedded as association lists
  (`List (String × α)`) with Python's insertion semantics (`setA`): assignment
  replaces the value of an existing key in place, otherwise appends the entry.
* Python exceptions are embedded as `Except PyErr` values; a `PyErr` carries
  the exception class name and its message, mirroring the
  `type(error).__name__` / `str(error)` pair the code stores.
* Wall-clock timestamps are generated by an abstract monotone counter; the
  claims under study never constrain concrete datetime values.
-/

namespace SignalHub

/-- A Python exception value as far as the orchestrator observes it:
the class name (`type(e).__name__`) and the message (`str(e)`). -/
structure PyErr where
  ename : String
  emsg : String
deriving Repr, DecidableEq

instance {ε α : Type} [DecidableEq ε] [DecidableEq α] : DecidableEq (Except ε α) := by
  intro x y
  cases x <;> cases y
  case error.error a b =>
    exact decidable_of_iff (a = b) (by simp)
  case ok.ok a b =>
    exact decidable_of_iff (a = b) (by simp)
  case error.ok a b =>
    exact isFalse (fun h => Except.noConfusion h)
  case ok.error a b =>
    exact isFalse (fun h => Except.noConfusion h)

/-- Python `dict` assignment `d[k] = v` on an association list: replaces the
value of the first (and, for dicts, only) occurrence of the key, otherwise
appends the new entry, preserving insertion order. -/
def setA (k : String) (v : α) : List (String × α) → List (String × α)
  | [] => [(k, v)]
  | (k', v') :: rest => if k = k' then (k, v) :: rest else (k', v') :: setA k v rest

/-- Python `d.get(k)` / `k in d` on an association list. -/
def lookupA (k : String) : List (String × α) → Option α
  | [] => none
  | (k', v) :: rest => if k = k' then some v else lookupA k rest

theorem lookupA_setA_self (k : String) (v : α) (m : List (String × α)) :
    lookupA k (setA k v m) = some v := by
  induction m with
  | nil => simp [setA, lookupA]
  | cons hd tl ih =>
    by_cases h : k = hd.1
    · simp [setA, h, lookupA]
    · simp [setA, if_neg h, lookupA, ih]

theorem lookupA_setA_ne (k k' : String) (v : α) (m : List (String × α))
    (h : k' ≠ k) : lookupA k' (setA k v m) = lookupA k' m := by
  induction m with
  | nil => simp [setA, lookupA, h]
  | cons hd tl ih =>
    by_cases hk : k = hd.1
    · subst hk
      simp [setA, lookupA, h]
    · simp [setA, if_neg hk, lookupA, ih]

theorem setA_of_lookupA_eq (k : String) (v : α) (m : List (String × α))
    (h : lookupA k m = some v) : setA k v m = m := by
  induction m with
  | nil => simp [lookupA] at h
  | cons hd tl ih =>
    by_cases hk : k = hd.1
    · rw [lookupA, if_pos hk] at h
      obtain ⟨k1, v1⟩ := hd
      simp only [setA, if_pos hk]
      simp only at hk h
      rw [hk, (Option.some_inj.mp h)]
    · rw [lookupA, if_neg hk] at h
      simp [setA, if_neg hk, ih h]

theorem setA_setA (k : String) (v v' : α) (m : List (String × α)) :
    setA k v (setA k v' m) = setA k v m := by
  induction m with
  | nil => simp [setA]
  | cons hd tl ih =>
    by_cases hk : k = hd.1
    · simp [setA, hk]
    · simp [setA, if_neg hk, ih]

theorem mem_setA (k : String) (v : α) (m : List (String × α)) (e : String × α)
    (he : e ∈ setA k v m) : e = (k, v) ∨ e ∈ m := by
  induction m with
  | nil => simpa [setA] using he
  | cons hd tl ih =>
    by_cases hk : k = hd.1
    · rw [setA, if_pos hk] at he
      rcases List.mem_cons.mp he with h | h
      · exact Or.inl h
      · exact Or.inr (List.mem_cons_of_mem _ h)
    · rw [setA, if_neg hk] at he
      rcases List.mem_cons.mp he with h | h
      · exact Or.inr (h ▸ List.mem_cons_self _ _)
      · rcases ih h with h' | h'
        · exact Or.inl h'
        · exact Or.inr (List.mem_cons_of_mem _ h')

/-! ## The retry executor

`AudioProcessingPipeline._retry_operation` (pipeline_orchestrator.py, lines
484–511).  The Python loop

```
for attempt in range(max_retries + 1):
    try:
        return operation_func()
    except Exception as e:
        if attempt == max_retries:
            raise
        wait_time = 2 ** attempt
        await asyncio.sleep(wait_time)
```

is embedded with the operation given as a per-invocation outcome oracle
`op : Nat → Except ε α` (invocation `i` either returns a value or raises).
The recursion is structured on `remaining = max_retries - attempt`, which is
exactly the number of loop iterations still to come after the current one;
`remaining = 0` is the Python guard `attempt == max_retries`. -/

/-- One record per `logger` call the retry loop makes: the `info` line at the
top of each attempt, the `warning` line before a backoff wait, and the `error`
line when the budget is exhausted (the annotation of the re-raised error with
attempt count and operation name). -/
inductive RetryLog (ε : Type) where
  | attempting (name : String) (attempt total : Nat)
  | retrying (name : String) (attempt wait : Nat) (e : ε)
  | exhausted (name : String) (attempts : Nat) (e : ε)
deriving Repr, DecidableEq

/-- Observable outcome of one `_retry_operation` run: the returned value or
re-raised error, the number of times the operation was invoked, the backoff
waits passed to `asyncio.sleep` in order, and the log records. -/
structure RetryResult (ε α : Type) where
  result : Except ε α
  calls : Nat
  waits : List Nat
  log : List (RetryLog ε)
deriving Repr, DecidableEq

/-- The retry loop from iteration `attempt` on, with `remaining` further
iterations allowed after the current one (`remaining = max_retries - attempt`;
`remaining = 0` is Python's `attempt == max_retries` exhaustion guard). -/
def retryFromAux (op : Nat → Except ε α) (name : String) (attempt : Nat) :
    Nat → RetryResult ε α
  | 0 =>
    match op attempt with
    | .ok a => ⟨.ok a, 1, [], [.attempting name (attempt + 1) (attempt + 1)]⟩
    | .error e =>
        ⟨.error e, 1, [],
          [.attempting name (attempt + 1) (attempt + 1),
           .exhausted name (attempt + 1) e]⟩
  | remaining + 1 =>
    match op attempt with
    | .ok a =>
        ⟨.ok a, 1, [],
          [.attempting name (attempt + 1) (attempt + remaining + 2)]⟩
    | .error e =>
        let wait := 2 ^ attempt
        let r := retryFromAux op name (attempt + 1) remaining
        ⟨r.result, r.calls + 1, wait :: r.waits,
          .attempting name (attempt + 1) (attempt + remaining + 2) ::
            .retrying name (attempt + 1) wait e :: r.log⟩

/-- `AudioProcessingPipeline._retry_operation(operation_func, operation_name,
max_retries)`: run the loop starting at attempt 0. -/
def retryOperation (op : Nat → Except ε α) (name : String) (maxRetries : Nat) :
    RetryResult ε α :=
  retryFromAux op name 0 maxRetries

theorem retryFromAux_calls_le (op : Nat → Except ε α) (name : String) :
    ∀ remaining attempt, (retryFromAux op name attempt remaining).calls ≤ remaining + 1 := by
  intro remaining
  induction remaining with
  | zero =>
    intro attempt
    cases h : op attempt <;> simp [retryFromAux, h]
  | succ n ih =>
    intro attempt
    cases h : op attempt with
    | ok a => simp [retryFromAux, h]
    | error e =>
      simp only [retryFromAux, h]
      exact Nat.succ_le_succ (ih (attempt + 1))

theorem retryFromAux_success (op : Nat → Except ε α) (name : String) (a : α) :
    ∀ k remaining attempt, k ≤ remaining →
      (∀ i, i < k → ∃ e, op (attempt + i) = .error e) →
      op (attempt + k) = .ok a →
      (retryFromAux op name attempt remaining).result = .ok a ∧
      (retryFromAux op name attempt remaining).calls = k + 1 := by
  intro k
  induction k with
  | zero =>
    intro remaining attempt _ _ hk
    simp only [Nat.add_zero] at hk
    cases remaining <;> simp [retryFromAux, hk]
  | succ n ih =>
    intro remaining attempt hle hfail hok
    obtain ⟨e, he⟩ := hfail 0 (Nat.succ_pos n)
    rw [Nat.add_zero] at he
    obtain ⟨m, rfl⟩ : ∃ m, remaining = m + 1 :=
      ⟨remaining - 1, by omega⟩
    simp only [retryFromAux, he]
    have := ih m (attempt + 1) (by omega)
      (fun i hi => by
        have h2 : attempt + 1 + i = attempt + (i + 1) := by omega
        rw [h2]
        exact hfail (i + 1) (by omega))
      (by
        have h2 : attempt + 1 + n = attempt + (n + 1) := by omega
        rw [h2]
        exact hok)
    exact ⟨this.1, by rw [this.2]⟩

theorem retryFromAux_exhausted (op : Nat → Except ε α) (name : String)
    (es : Nat → ε) :
    ∀ remaining attempt,
      (∀ i, i ≤ remaining → op (attempt + i) = .error (es (attempt + i))) →
      (retryFromAux op name attempt remaining).result =
          .error (es (attempt + remaining)) ∧
      (retryFromAux op name attempt remaining).calls = remaining + 1 ∧
      RetryLog.exhausted name (attempt + remaining + 1) (es (attempt + remaining)) ∈
        (retryFromAux op name attempt remaining).log := by
  intro remaining
  induction remaining with
  | zero =>
    intro attempt hall
    have h0 := hall 0 (Nat.le_refl 0)
    rw [Nat.add_zero] at h0
    simp [retryFromAux, h0]
  | succ n ih =>
    intro attempt hall
    have h0 := hall 0 (Nat.zero_le _)
    rw [Nat.add_zero] at h0
    have hrec := ih (attempt + 1) (fun i hi => by
      have h2 : attempt + 1 + i = attempt + (i + 1) := by omega
      rw [h2]
      exact hall (i + 1) (by omega))
    have hx : attempt + 1 + n = attempt + (n + 1) := by omega
    rw [hx] at hrec
    simp only [retryFromAux, h0]
    exact ⟨hrec.1, by rw [hrec.2.1],
      List.mem_cons_of_mem _ (List.mem_cons_of_mem _ hrec.2.2)⟩

theorem retryFromAux_waits (op : Nat → Except ε α) (name : String) :
    ∀ remaining attempt,
      (retryFromAux op name attempt remaining).waits.length ≤ remaining ∧
      ∀ i, i < (retryFromAux op name attempt remaining).waits.length →
        (retryFromAux op name attempt remaining).waits.getD i 0 = 2 ^ (attempt + i) := by
  intro remaining
  induction remaining with
  | zero =>
    intro attempt
    cases h : op attempt <;> simp [retryFromAux, h]
  | succ n ih =>
    intro attempt
    cases h : op attempt with
    | ok a => simp [retryFromAux, h]
    | error e =>
      simp only [retryFromAux, h, List.length_cons]
      obtain ⟨hlen, hget⟩ := ih (attempt + 1)
      refine ⟨by omega, ?_⟩
      intro i hi
      cases i with
      | zero => simp
      | succ j =>
        simp only [List.getD_cons_succ]
        rw [hget j (by omega)]
        ring_nf

/-- C2: an operation wrapped by `_retry_operation` with budget `max_retries`
that fails on exactly its first `k` invocations (`k < max_retries`) and then
succeeds is observed by the caller as a success — the operation's result is
returned — and the operation was invoked exactly `k + 1` times. -/
theorem retry_succeeds_after_k_failures {α : Type} (op : Nat → Except PyErr α)
    (name : String) (maxRetries k : Nat) (a : α)
    (hk : k < maxRetries)
    (hfail : ∀ i, i < k → ∃ e, op i = .error e)
    (hsucc : op k = .ok a) :
    (retryOperation op name maxRetries).result = .ok a ∧
    (retryOperation op name maxRetries).calls = k + 1 :=
  retryFromAux_success op name a k maxRetries 0 (Nat.le_of_lt hk)
    (fun i hi => by simpa using hfail i hi) (by simpa using hsucc)

/-- Witness for C2: an operation failing twice then returning 7, under budget
`max_retries = 3`, yields 7 after exactly 3 invocations. -/
theorem retry_succeeds_after_k_failures_witness :
    (retryOperation (fun i => if i < 2 then .error ⟨"E", "boom"⟩ else .ok 7 : Nat → Except PyErr Nat) "audio_conversion" 3).result = .ok 7 ∧
    (retryOperation (fun i => if i < 2 then .error ⟨"E", "boom"⟩ else .ok 7 : Nat → Except PyErr Nat) "audio_conversion" 3).calls = 2 + 1 :=
  retry_succeeds_after_k_failures _ "audio_conversion" 3 2 7 (by decide)
    (fun i hi => ⟨⟨"E", "boom"⟩, by rw [if_pos hi]⟩) (by decide)

/-- C3: `_retry_operation` invokes the operation at most `max_retries + 1`
times; if every invocation raises, it re-raises the error of the last
invocation, and the log carries the exhaustion record annotated with the
attempt count (`max_retries + 1`) and the operation name. -/
theorem retry_bounded_and_reraises_last {α : Type} (op : Nat → Except PyErr α)
    (name : String) (maxRetries : Nat) :
    (retryOperation op name maxRetries).calls ≤ maxRetries + 1 ∧
    ∀ es : Nat → PyErr, (∀ i, i ≤ maxRetries → op i = .error (es i)) →
      (retryOperation op name maxRetries).result = .error (es maxRetries) ∧
      RetryLog.exhausted name (maxRetries + 1) (es maxRetries) ∈
        (retryOperation op name maxRetries).log := by
  refine ⟨retryFromAux_calls_le op name maxRetries 0, ?_⟩
  intro es hall
  have h := retryFromAux_exhausted op name es maxRetries 0
    (fun i hi => by simpa using hall i hi)
  exact ⟨by simpa using h.1, by simpa using h.2.2⟩

/-- Witness for C3: an always-failing operation under budget 2 is invoked at
most 3 times; the third invocation's error is re-raised and the exhaustion is
logged with attempt count 3 and the operation name. -/
theorem retry_bounded_and_reraises_last_witness :
    (retryOperation (fun _ => (.error ⟨"RuntimeError", "db down"⟩ : Except PyErr Nat)) "transcript_storage" 2).calls ≤ 2 + 1 ∧
    (retryOperation (fun _ => (.error ⟨"RuntimeError", "db down"⟩ : Except PyErr Nat)) "transcript_storage" 2).result = .error ⟨"RuntimeError", "db down"⟩ ∧
    RetryLog.exhausted "transcript_storage" (2 + 1) ⟨"RuntimeError", "db down"⟩ ∈
      (retryOperation (fun _ => (.error ⟨"RuntimeError", "db down"⟩ : Except PyErr Nat)) "transcript_storage" 2).log := by
  have h := retry_bounded_and_reraises_last
    (fun _ => (.error ⟨"RuntimeError", "db down"⟩ : Except PyErr Nat)) "transcript_storage" 2
  exact ⟨h.1, h.2 (fun _ => ⟨"RuntimeError", "db down"⟩) (fun _ _ => rfl)⟩

/-- C4: within one `_retry_operation` run, the wait inserted before the retry
that follows failed attempt number `i` (attempts numbered from 0) equals
`2 ^ i` time units, so successive waits strictly increase, and at most
`max_retries` waits are ever inserted. -/
theorem retry_backoff_exponential {α : Type} (op : Nat → Except PyErr α)
    (name : String) (maxRetries : Nat) :
    (∀ i, i < (retryOperation op name maxRetries).waits.length →
        (retryOperation op name maxRetries).waits.getD i 0 = 2 ^ i) ∧
    (retryOperation op name maxRetries).waits.Pairwise (· < ·) ∧
    (retryOperation op name maxRetries).waits.length ≤ maxRetries := by
  obtain ⟨hlen, hget⟩ := retryFromAux_waits op name maxRetries 0
  have hget0 : ∀ i, i < (retryOperation op name maxRetries).waits.length →
      (retryOperation op name maxRetries).waits.getD i 0 = 2 ^ i :=
    fun i hi => by simpa using hget i hi
  refine ⟨hget0, ?_, hlen⟩
  rw [List.pairwise_iff_getElem]
  intro i j hi hj hij
  have gi := hget0 i hi
  have gj := hget0 j hj
  rw [List.getD_eq_getElem _ _ hi] at gi
  rw [List.getD_eq_getElem _ _ hj] at gj
  rw [gi, gj]
  exact Nat.pow_lt_pow_right (by norm_num) hij

/-- Witness for C4: an operation failing three times under budget 3 produces
the wait sequence with `waits[i] = 2 ^ i`, strictly increasing, of length at
most 3. -/
theorem retry_backoff_exponential_witness :
    (∀ i, i < (retryOperation (fun _ => (.error ⟨"E", "x"⟩ : Except PyErr Nat)) "audio_analysis" 3).waits.length →
        (retryOperation (fun _ => (.error ⟨"E", "x"⟩ : Except PyErr Nat)) "audio_analysis" 3).waits.getD i 0 = 2 ^ i) ∧
    (retryOperation (fun _ => (.error ⟨"E", "x"⟩ : Except PyErr Nat)) "audio_analysis" 3).waits.Pairwise (· < ·) ∧
    (retryOperation (fun _ => (.error ⟨"E", "x"⟩ : Except PyErr Nat)) "audio_analysis" 3).waits.length ≤ 3 :=
  retry_backoff_exponential (fun _ => (.error ⟨"E", "x"⟩ : Except PyErr Nat)) "audio_analysis" 3

/-! ## PipelineStatusTracker

`PipelineStatusTracker` (pipeline_orchestrator.py, lines 29–168) keeps four
per-call dicts: `step_status`, `step_timings`, `step_errors`, `step_results`.
The embedding is polymorphic in the result-payload type `ρ` stored by
`complete_step` (the source stores the step's result dict).  Step statuses and
overall statuses are the exact strings the source assigns. -/

/-- One `step_timings[call_id][step_name]` record. -/
structure Timing where
  start_time : Nat
  end_time : Option Nat
  duration_seconds : Option Nat
deriving Repr, DecidableEq

/-- One `step_errors[call_id][step_name]` record: `type(error).__name__`,
`str(error)`, and the failure timestamp. -/
structure ErrRecord where
  error_type : String
  error_message : String
  timestamp : Nat
deriving Repr, DecidableEq

/-- The four dict-of-dicts stores of `PipelineStatusTracker`. -/
structure TrackerState (ρ : Type) where
  step_status : List (String × List (String × String))
  step_timings : List (String × List (String × Timing))
  step_errors : List (String × List (String × ErrRecord))
  step_results : List (String × List (String × ρ))
deriving DecidableEq

/-- The tracker right after `__init__`. -/
def emptyTracker : TrackerState ρ := ⟨[], [], [], []⟩

/-- `m[c][s] = v` on a dict-of-dicts (the outer key is guaranteed present at
every use site in the source; `getD []` covers the impossible miss). -/
def setA2 (c s : String) (v : α) (m : List (String × List (String × α))) :
    List (String × List (String × α)) :=
  setA c (setA s v ((lookupA c m).getD [])) m

/-- `PipelineStatusTracker.start_step` (lines 42–61): initialize the four
per-call dicts if this is the first step for `call_id`, then record the step
as `"running"` with its start timestamp. -/
def startStep (tr : TrackerState ρ) (c s : String) (now : Nat) : TrackerState ρ :=
  let tr :=
    if (lookupA c tr.step_status).isNone then
      { step_status := setA c [] tr.step_status,
        step_timings := setA c [] tr.step_timings,
        step_errors := setA c [] tr.step_errors,
        step_results := setA c [] tr.step_results }
    else tr
  { tr with
    step_status := setA2 c s "running" tr.step_status,
    step_timings := setA2 c s ⟨now, none, none⟩ tr.step_timings }

/-- `PipelineStatusTracker.complete_step` (lines 63–91): guarded by
`call_id in step_status and step_name in step_status[call_id]`; on a hit,
set the status to `"completed"`, close the timing record (duration from the
recorded start), and store the result.  On a miss the method body is skipped
entirely — it returns with no state change and raises nothing (the only
fallible operation, the timestamp parse, sits inside the guarded branch). -/
def completeStep (tr : TrackerState ρ) (c s : String) (result : ρ) (now : Nat) :
    TrackerState ρ :=
  match (lookupA c tr.step_status).bind (lookupA s) with
  | none => tr
  | some _ =>
    let start := (((lookupA c tr.step_timings).bind (lookupA s)).map Timing.start_time).getD 0
    { tr with
      step_status := setA2 c s "completed" tr.step_status,
      step_timings := setA2 c s ⟨start, some now, some (now - start)⟩ tr.step_timings,
      step_results := setA2 c s result tr.step_results }

/-- `PipelineStatusTracker.fail_step` (lines 93–125): same guard as
`complete_step`; on a hit, set the status to `"failed"`, close the timing
record, and store the error kind/message/timestamp. -/
def failStep (tr : TrackerState ρ) (c s : String) (e : PyErr) (now : Nat) :
    TrackerState ρ :=
  match (lookupA c tr.step_status).bind (lookupA s) with
  | none => tr
  | some _ =>
    let start := (((lookupA c tr.step_timings).bind (lookupA s)).map Timing.start_time).getD 0
    { tr with
      step_status := setA2 c s "failed" tr.step_status,
      step_timings := setA2 c s ⟨start, some now, some (now - start)⟩ tr.step_timings,
      step_errors := setA2 c s ⟨e.ename, e.emsg, now⟩ tr.step_errors }

/-- `step_status[call_id][step_name]`, as the orchestrator and the status
query read it. -/
def statusOf (tr : TrackerState ρ) (c s : String) : Option String :=
  (lookupA c tr.step_status).bind (lookupA s)

/-- `step_results[call_id][step_name]`. -/
def resultOf (tr : TrackerState ρ) (c s : String) : Option ρ :=
  (lookupA c tr.step_results).bind (lookupA s)

/-- `PipelineStatusTracker._get_overall_status` (lines 142–156). -/
def getOverallStatus (tr : TrackerState ρ) (c : String) : String :=
  match lookupA c tr.step_status with
  | none => "not_found"
  | some steps =>
    let statuses := steps.map Prod.snd
    if statuses.contains "failed" then "failed"
    else if statuses.contains "running" then "running"
    else if statuses.all (· == "completed") then "completed"
    else "partial"

/-- C5: for every tracked call, the overall status `_get_overall_status`
computes equals: `"failed"` if any recorded step has status failed, else
`"running"` if any recorded step is running, else `"completed"` if all
recorded steps are completed, else `"partial"`. -/
theorem overall_status_derivation {ρ : Type} (tr : TrackerState ρ) (c : String)
    (steps : List (String × String)) (h : lookupA c tr.step_status = some steps) :
    getOverallStatus tr c =
      if ∃ p ∈ steps, p.2 = "failed" then "failed"
      else if ∃ p ∈ steps, p.2 = "running" then "running"
      else if ∀ p ∈ steps, p.2 = "completed" then "completed"
      else "partial" := by
  have e1 : ((steps.map Prod.snd).contains "failed" = true) ↔ (∃ p ∈ steps, p.2 = "failed") := by
    simp only [List.elem_iff, List.mem_map]
  have e2 : ((steps.map Prod.snd).contains "running" = true) ↔ (∃ p ∈ steps, p.2 = "running") := by
    simp only [List.elem_iff, List.mem_map]
  have e3 : ((steps.map Prod.snd).all (· == "completed") = true) ↔ (∀ p ∈ steps, p.2 = "completed") := by
    simp only [List.all_eq_true, List.mem_map, beq_iff_eq]
    constructor
    · intro hall p hp; exact hall p.2 ⟨p, hp, rfl⟩
    · rintro hall v ⟨p, hp, rfl⟩; exact hall p hp
  simp only [getOverallStatus, h]
  by_cases h1 : ∃ p ∈ steps, p.2 = "failed"
  · rw [if_pos (e1.mpr h1), if_pos h1]
  · rw [if_neg (fun hc => h1 (e1.mp hc)), if_neg h1]
    by_cases h2 : ∃ p ∈ steps, p.2 = "running"
    · rw [if_pos (e2.mpr h2), if_pos h2]
    · rw [if_neg (fun hc => h2 (e2.mp hc)), if_neg h2]
      by_cases h3 : ∀ p ∈ steps, p.2 = "completed"
      · rw [if_pos (e3.mpr h3), if_pos h3]
      · rw [if_neg (fun hc => h3 (e3.mp hc)), if_neg h3]

/-- Witness for C5 at a concrete tracked call with one completed and one
running step: the derived overall status is `"running"`. -/
theorem overall_status_derivation_witness :
    getOverallStatus
      (⟨[("c1", [("upload", "completed"), ("audio_processing", "running")])], [], [], []⟩ :
        TrackerState String) "c1" =
      if ∃ p ∈ [("upload", "completed"), ("audio_processing", "running")], p.2 = "failed" then "failed"
      else if ∃ p ∈ [("upload", "completed"), ("audio_processing", "running")], p.2 = "running" then "running"
      else if ∀ p ∈ [("upload", "completed"), ("audio_processing", "running")], p.2 = "completed" then "completed"
      else "partial" :=
  overall_status_derivation _ "c1" _ (by decide)

/-! ### Operation sequences against the tracker -/

/-- One mutating call to the status tracker. -/
inductive TrackerOp (ρ : Type) where
  | start (c s : String) (t : Nat)
  | complete (c s : String) (r : ρ) (t : Nat)
  | fail (c s : String) (e : PyErr) (t : Nat)
deriving DecidableEq

/-- Run one tracker call. -/
def applyOp (tr : TrackerState ρ) : TrackerOp ρ → TrackerState ρ
  | .start c s t => startStep tr c s t
  | .complete c s r t => completeStep tr c s r t
  | .fail c s e t => failStep tr c s e t

/-- Run a sequence of tracker calls in order. -/
def applyOps (tr : TrackerState ρ) (ops : List (TrackerOp ρ)) : TrackerState ρ :=
  ops.foldl applyOp tr

/-- Is this operation a `start_step` or `complete_step` call for exactly the
pair `(c, s)` — the two calls able to overwrite a failed status? -/
def reopens (c s : String) : TrackerOp ρ → Bool
  | .start c' s' _ => c' == c && s' == s
  | .complete c' s' _ _ => c' == c && s' == s
  | .fail _ _ _ _ => false

/-- Is this operation a `start_step` call for exactly the pair `(c, s)`? -/
def isStartFor (c s : String) : TrackerOp ρ → Bool
  | .start c' s' _ => c' == c && s' == s
  | _ => false

theorem statusOf_startStep_self (tr : TrackerState ρ) (c s : String) (t : Nat) :
    statusOf (startStep tr c s t) c s = some "running" := by
  simp [startStep, statusOf, setA2, lookupA_setA_self]

theorem statusOf_startStep_ne (tr : TrackerState ρ) (c s : String) (t : Nat)
    (c' s' : String) (h : ¬(c' = c ∧ s' = s)) :
    statusOf (startStep tr c s t) c' s' = statusOf tr c' s' := by
  by_cases hc : c' = c
  · subst hc
    have hs : s' ≠ s := fun hs => h ⟨rfl, hs⟩
    by_cases hinit : (lookupA c' tr.step_status).isNone
    · have hnone : lookupA c' tr.step_status = none := by
        simpa [Option.isNone_iff_eq_none] using hinit
      simp [startStep, statusOf, setA2, hinit, lookupA_setA_self, lookupA_setA_ne _ _ _ _ hs,
        hnone, lookupA, hs]
    · have ⟨m0, hm0⟩ : ∃ m0, lookupA c' tr.step_status = some m0 := by
        cases hx : lookupA c' tr.step_status with
        | none => rw [hx] at hinit; simp at hinit
        | some m0 => exact ⟨m0, rfl⟩
      simp [startStep, statusOf, setA2, hinit, lookupA_setA_self, lookupA_setA_ne _ _ _ _ hs, hm0]
  · by_cases hinit : (lookupA c tr.step_status).isNone
    · simp [startStep, statusOf, setA2, hinit, lookupA_setA_ne _ _ _ _ hc]
    · simp [startStep, statusOf, setA2, hinit, lookupA_setA_ne _ _ _ _ hc]

theorem completeStep_of_none (tr : TrackerState ρ) (c s : String) (r : ρ) (t : Nat)
    (h : statusOf tr c s = none) : completeStep tr c s r t = tr := by
  unfold statusOf at h
  simp [completeStep, h]

theorem failStep_of_none (tr : TrackerState ρ) (c s : String) (e : PyErr) (t : Nat)
    (h : statusOf tr c s = none) : failStep tr c s e t = tr := by
  unfold statusOf at h
  simp [failStep, h]

theorem statusOf_completeStep_self (tr : TrackerState ρ) (c s : String) (r : ρ) (t : Nat)
    (x : String) (h : statusOf tr c s = some x) :
    statusOf (completeStep tr c s r t) c s = some "completed" := by
  unfold statusOf at h
  simp [completeStep, h, statusOf, setA2, lookupA_setA_self]

theorem statusOf_failStep_self (tr : TrackerState ρ) (c s : String) (e : PyErr) (t : Nat)
    (x : String) (h : statusOf tr c s = some x) :
    statusOf (failStep tr c s e t) c s = some "failed" := by
  unfold statusOf at h
  simp [failStep, h, statusOf, setA2, lookupA_setA_self]

theorem statusOf_completeStep_ne (tr : TrackerState ρ) (c s : String) (r : ρ) (t : Nat)
    (c' s' : String) (h : ¬(c' = c ∧ s' = s)) :
    statusOf (completeStep tr c s r t) c' s' = statusOf tr c' s' := by
  cases hg : (lookupA c tr.step_status).bind (lookupA s) with
  | none => simp [completeStep, hg]
  | some x =>
    have ⟨m0, hm0⟩ : ∃ m0, lookupA c tr.step_status = some m0 := by
      cases hx : lookupA c tr.step_status with
      | none => rw [hx] at hg; simp at hg
      | some m0 => exact ⟨m0, rfl⟩
    unfold completeStep
    rw [hg]
    by_cases hc : c' = c
    · subst hc
      have hs : s' ≠ s := fun hs => h ⟨rfl, hs⟩
      simp [statusOf, setA2, hm0, lookupA_setA_self, lookupA_setA_ne _ _ _ _ hs]
    · simp [statusOf, setA2, lookupA_setA_ne _ _ _ _ hc]

theorem statusOf_failStep_ne (tr : TrackerState ρ) (c s : String) (e : PyErr) (t : Nat)
    (c' s' : String) (h : ¬(c' = c ∧ s' = s)) :
    statusOf (failStep tr c s e t) c' s' = statusOf tr c' s' := by
  cases hg : (lookupA c tr.step_status).bind (lookupA s) with
  | none => simp [failStep, hg]
  | some x =>
    have ⟨m0, hm0⟩ : ∃ m0, lookupA c tr.step_status = some m0 := by
      cases hx : lookupA c tr.step_status with
      | none => rw [hx] at hg; simp at hg
      | some m0 => exact ⟨m0, rfl⟩
    unfold failStep
    rw [hg]
    by_cases hc : c' = c
    · subst hc
      have hs : s' ≠ s := fun hs => h ⟨rfl, hs⟩
      simp [statusOf, setA2, hm0, lookupA_setA_self, lookupA_setA_ne _ _ _ _ hs]
    · simp [statusOf, setA2, lookupA_setA_ne _ _ _ _ hc]

/-- C6 counterexample: the claim "once the StatusTracker records a step as
failed, no subsequent StatusTracker operation for that run changes that
step's status away from failed" is false as stated: after
`start_step; fail_step` has recorded `("c", "upload")` as failed, a
subsequent `complete_step` for the same pair passes the presence guard and
overwrites the status to `"completed"`. -/
theorem failed_step_reopened_cex :
    statusOf (failStep (startStep (emptyTracker : TrackerState String) "c" "upload" 0)
        "c" "upload" ⟨"ValueError", "bad file"⟩ 1) "c" "upload" = some "failed" ∧
    statusOf (completeStep (failStep (startStep (emptyTracker : TrackerState String) "c" "upload" 0)
        "c" "upload" ⟨"ValueError", "bad file"⟩ 1) "c" "upload" "result" 2) "c" "upload" =
      some "completed" ∧
    some "completed" ≠ some "failed" := by
  refine ⟨by decide, by decide, by decide⟩

/-- C6 amended: once a step's status is recorded `"failed"`, every
subsequent tracker operation other than a `start_step` or `complete_step`
for that same `(call_id, step_name)` pair leaves it `"failed"` — the tracker
itself does not guard against such a reopening call, but the orchestrator
never issues one after a failure (the failure aborts the run), so within an
orchestrator-driven run the failed status is terminal. -/
theorem failed_step_stays_failed {ρ : Type} (tr : TrackerState ρ)
    (ops : List (TrackerOp ρ)) (c s : String)
    (hf : statusOf tr c s = some "failed")
    (hops : ∀ op ∈ ops, reopens c s op = false) :
    statusOf (applyOps tr ops) c s = some "failed" := by
  induction ops generalizing tr with
  | nil => exact hf
  | cons op rest ih =>
    have hop := hops op (List.mem_cons_self _ _)
    have hrest : ∀ op' ∈ rest, reopens c s op' = false :=
      fun op' h' => hops op' (List.mem_cons_of_mem _ h')
    have hstep : statusOf (applyOp tr op) c s = some "failed" := by
      cases op with
      | start c' s' t =>
        have hne : ¬(c = c' ∧ s = s') := by
          intro ⟨h1, h2⟩
          simp [reopens, h1, h2] at hop
        rw [applyOp, statusOf_startStep_ne tr c' s' t c s hne]
        exact hf
      | complete c' s' r t =>
        have hne : ¬(c = c' ∧ s = s') := by
          intro ⟨h1, h2⟩
          simp [reopens, h1, h2] at hop
        rw [applyOp, statusOf_completeStep_ne tr c' s' r t c s hne]
        exact hf
      | fail c' s' e t =>
        by_cases hcs : c = c' ∧ s = s'
        · obtain ⟨h1, h2⟩ := hcs
          subst h1; subst h2
          exact statusOf_failStep_self tr c s e t "failed" hf
        · rw [applyOp, statusOf_failStep_ne tr c' s' e t c s hcs]
          exact hf
    exact ih (applyOp tr op) hstep hrest

/-- Witness for the amended C6: after `("c", "upload")` fails, a
`start_step` for another step, a `complete_step` for another call, and a
repeated `fail_step` for the same pair all leave the status `"failed"`. -/
theorem failed_step_stays_failed_witness :
    statusOf (applyOps (failStep (startStep (emptyTracker : TrackerState String) "c" "upload" 0)
        "c" "upload" ⟨"ValueError", "bad file"⟩ 1)
      [.start "c" "audio_processing" 2, .complete "c2" "upload" "r" 3,
       .fail "c" "upload" ⟨"E", "again"⟩ 4]) "c" "upload" = some "failed" :=
  failed_step_stays_failed _ _ "c" "upload" (by decide) (by decide)

/-- C10: for a `(call_id, step_name)` pair for which no prior `start_step`
was ever recorded (over any operation history starting from a fresh
tracker), `complete_step` and `fail_step` return normally — in the source
the presence guard skips the whole method body, including its only fallible
statement, the timestamp parse — and leave the entire tracker state
(`step_status`, `step_timings`, `step_errors`, `step_results`) unchanged. -/
theorem unknown_pair_mutations_are_noops {ρ : Type} (ops : List (TrackerOp ρ))
    (c s : String) (r : ρ) (e : PyErr) (t1 t2 : Nat)
    (h : ∀ op ∈ ops, isStartFor c s op = false) :
    completeStep (applyOps emptyTracker ops) c s r t1 = applyOps emptyTracker ops ∧
    failStep (applyOps emptyTracker ops) c s e t2 = applyOps emptyTracker ops := by
  have habs : statusOf (applyOps (emptyTracker : TrackerState ρ) ops) c s = none := by
    have main : ∀ (l : List (TrackerOp ρ)) (tr : TrackerState ρ),
        statusOf tr c s = none → (∀ op ∈ l, isStartFor c s op = false) →
        statusOf (applyOps tr l) c s = none := by
      intro l
      induction l with
      | nil => intro tr h0 _; exact h0
      | cons op rest ih =>
        intro tr h0 hl
        have hop := hl op (List.mem_cons_self _ _)
        have hrest : ∀ op' ∈ rest, isStartFor c s op' = false :=
          fun op' h' => hl op' (List.mem_cons_of_mem _ h')
        have hstep : statusOf (applyOp tr op) c s = none := by
          cases op with
          | start c' s' t =>
            have hne : ¬(c = c' ∧ s = s') := by
              intro ⟨h1, h2⟩
              simp [isStartFor, h1, h2] at hop
            rw [applyOp, statusOf_startStep_ne tr c' s' t c s hne]
            exact h0
          | complete c' s' r' t =>
            by_cases hcs : c = c' ∧ s = s'
            · obtain ⟨h1, h2⟩ := hcs
              subst h1; subst h2
              rw [applyOp, completeStep_of_none tr c s r' t h0]
              exact h0
            · rw [applyOp, statusOf_completeStep_ne tr c' s' r' t c s hcs]
              exact h0
          | fail c' s' e' t =>
            by_cases hcs : c = c' ∧ s = s'
            · obtain ⟨h1, h2⟩ := hcs
              subst h1; subst h2
              rw [applyOp, failStep_of_none tr c s e' t h0]
              exact h0
            · rw [applyOp, statusOf_failStep_ne tr c' s' e' t c s hcs]
              exact h0
        exact ih (applyOp tr op) hstep hrest
    exact main ops emptyTracker (by simp [statusOf, emptyTracker, lookupA]) h
  exact ⟨completeStep_of_none _ c s r t1 habs, failStep_of_none _ c s e t2 habs⟩

/-- Witness for C10: after a history touching other pairs only,
`complete_step` and `fail_step` on the never-started pair `("c", "upload")`
leave the tracker unchanged. -/
theorem unknown_pair_mutations_are_noops_witness :
    completeStep (applyOps (emptyTracker : TrackerState String)
        [.start "c" "other" 0, .start "c2" "upload" 1]) "c" "upload" "r" 5 =
      applyOps (emptyTracker : TrackerState String)
        [.start "c" "other" 0, .start "c2" "upload" 1] ∧
    failStep (applyOps (emptyTracker : TrackerState String)
        [.start "c" "other" 0, .start "c2" "upload" 1]) "c" "upload" ⟨"E", "x"⟩ 6 =
      applyOps (emptyTracker : TrackerState String)
        [.start "c" "other" 0, .start "c2" "upload" 1] :=
  unknown_pair_mutations_are_noops _ "c" "upload" "r" ⟨"E", "x"⟩ 5 6 (by decide)

/-! ## LiveSessionManager

`LiveSessionManager` (live_mic.py, lines 24–85).  A session holds an
append-only chunk list and a parallel partials list.  The filesystem moves
(`raw_path.replace(dest)`) have no bearing on the claims; a chunk is embedded
as its destination file name `chunk_<idx><ext>`, with `ext` the suffix of the
incoming raw path (`".bin"` when the raw path has no suffix). -/

/-- A `LiveSession` dataclass: id, working directory, chunk file names in
arrival order, and the parallel partial-transcript list. -/
structure LiveSession where
  session_id : String
  dir : String
  chunks : List String
  partials : List String
deriving Repr, DecidableEq

/-- The manager's `sessions` dict. -/
abbrev Sessions := List (String × LiveSession)

/-- Grow `ps` with empty placeholders up to length `n`
(`while len(ps) < n: ps.append("")`). -/
def padTo (ps : List String) (n : Nat) : List String :=
  ps ++ List.replicate (n - ps.length) ""

/-- `LiveSessionManager.start` (lines 39–45), with the fresh uuid supplied
by the caller: register an empty session with its working directory. -/
def startSession (mgr : Sessions) (sid : String) : Sessions :=
  setA sid ⟨sid, "live_sessions/" ++ sid, [], []⟩ mgr

/-- `LiveSessionManager.add_raw_chunk` (lines 50–66): unknown session ids
raise `KeyError("session_not_found")`; otherwise the chunk is stored under
the next sequential index `len(chunks)`, and the partials list is padded
with `""` slots until `len(partials) >= len(chunks)`.  Returns the assigned
index. -/
def addRawChunk (mgr : Sessions) (sid : String) (rawSuffix : String) :
    Except String (Nat × Sessions) :=
  match lookupA sid mgr with
  | none => .error "session_not_found"
  | some sess =>
    let idx := sess.chunks.length
    let ext := if rawSuffix.isEmpty then ".bin" else rawSuffix
    let dest := "chunk_" ++ toString idx ++ ext
    let chunks := sess.chunks ++ [dest]
    let partials := padTo sess.partials chunks.length
    .ok (idx, setA sid { sess with chunks := chunks, partials := partials } mgr)

/-- One slot assignment `partials[idx] = text` after growing the list with
`""` while `len(partials) <= idx` (`set_partial` body, lines 72–74).  The
source's `text or ""` is the identity on a `str` argument (it only converts
`None` to `""`), so the text is stored as given. -/
def setSlot (idx : Nat) (text : String) (ps : List String) : List String :=
  (padTo ps (idx + 1)).set idx text

/-- `LiveSessionManager.set_partial` (lines 68–74). -/
def setPartial (mgr : Sessions) (sid : String) (idx : Nat) (text : String) :
    Except String Sessions :=
  match lookupA sid mgr with
  | none => .error "session_not_found"
  | some sess => .ok (setA sid { sess with partials := setSlot idx text sess.partials } mgr)

/-- `LiveSessionManager.stop` (lines 76–81): join the non-empty partials in
index order with single spaces, trim, and return the final text together
with the (unchanged) sessions map — `stop` deletes nothing. -/
def stopSession (mgr : Sessions) (sid : String) :
    Except String (String × Sessions) :=
  match lookupA sid mgr with
  | none => .error "session_not_found"
  | some sess =>
    .ok ((String.intercalate " " (sess.partials.filter (fun p => !p.isEmpty))).trim, mgr)

/-- A batch of `set_partial` calls `(idx, text)` against one session, in
arrival order. -/
def applySetPartials (mgr : Sessions) (sid : String) :
    List (Nat × String) → Except String Sessions
  | [] => .ok mgr
  | op :: rest =>
    match setPartial mgr sid op.1 op.2 with
    | .error e => .error e
    | .ok mgr' => applySetPartials mgr' sid rest

/-- The same batch acting on the partials list alone. -/
def applySlots (ops : List (Nat × String)) (ps : List String) : List String :=
  ops.foldl (fun ps op => setSlot op.1 op.2 ps) ps

theorem mem_of_lookupA (k : String) (v : α) (m : List (String × α))
    (h : lookupA k m = some v) : (k, v) ∈ m := by
  induction m with
  | nil => simp [lookupA] at h
  | cons hd tl ih =>
    by_cases hk : k = hd.1
    · rw [lookupA, if_pos hk] at h
      have hdkv : hd = (k, v) := by
        obtain ⟨k1, v1⟩ := hd
        simp only at hk h
        rw [hk, Option.some_inj.mp h]
      rw [hdkv]
      exact List.mem_cons_self _ _
    · rw [lookupA, if_neg hk] at h
      exact List.mem_cons_of_mem _ (ih h)

/-- Invariant of C8: in every registered session,
`len(partials) >= len(chunks)`. -/
def chunkPartialInv (mgr : Sessions) : Prop :=
  ∀ e ∈ mgr, e.2.chunks.length ≤ e.2.partials.length

instance (mgr : Sessions) : Decidable (chunkPartialInv mgr) :=
  List.decidableBAll _ mgr

/-- C8: every `LiveSessionManager` operation preserves
`len(partials) >= len(chunks)` for every session, and `add_raw_chunk`
assigns indices strictly sequentially — the index it returns equals the
number of chunks stored in that session before the call. -/
theorem live_session_invariants (mgr : Sessions) (sid sid2 ext : String)
    (idx : Nat) (t : String) (hinv : chunkPartialInv mgr) :
    chunkPartialInv (startSession mgr sid2) ∧
    (∀ i mgr', addRawChunk mgr sid ext = .ok (i, mgr') →
      chunkPartialInv mgr' ∧
      ∀ sess, lookupA sid mgr = some sess → i = sess.chunks.length) ∧
    (∀ mgr', setPartial mgr sid idx t = .ok mgr' → chunkPartialInv mgr') ∧
    (∀ r mgr', stopSession mgr sid = .ok (r, mgr') →
      mgr' = mgr ∧ chunkPartialInv mgr') := by
  refine ⟨?_, ?_, ?_, ?_⟩
  · intro e he
    rcases mem_setA _ _ _ _ he with h | h
    · subst h; simp
    · exact hinv e h
  · intro i mgr' hok
    cases hs : lookupA sid mgr with
    | none => simp [addRawChunk, hs] at hok
    | some sess =>
      simp only [addRawChunk, hs, Except.ok.injEq, Prod.mk.injEq] at hok
      obtain ⟨hi, hm⟩ := hok
      refine ⟨?_, ?_⟩
      · subst hm
        intro e he
        rcases mem_setA _ _ _ _ he with h | h
        · subst h
          simp only [List.length_append, List.length_singleton, padTo, List.length_replicate]
          omega
        · exact hinv e h
      · intro sess' hsess'
        rw [← hi, Option.some_inj.mp hsess']
  · intro mgr' hok
    cases hs : lookupA sid mgr with
    | none => simp [setPartial, hs] at hok
    | some sess =>
      simp only [setPartial, hs, Except.ok.injEq] at hok
      subst hok
      intro e he
      rcases mem_setA _ _ _ _ he with h | h
      · subst h
        have hlen : (setSlot idx t sess.partials).length =
            max sess.partials.length (idx + 1) := by
          simp only [setSlot, List.length_set, padTo, List.length_append,
            List.length_replicate]
          omega
        have := hinv (sid, sess) (mem_of_lookupA _ _ _ hs)
        simp only [hlen]
        simp only at this
        omega
      · exact hinv e h
  · intro r mgr' hok
    cases hs : lookupA sid mgr with
    | none => simp [stopSession, hs] at hok
    | some sess =>
      simp only [stopSession, hs, Except.ok.injEq, Prod.mk.injEq] at hok
      exact ⟨hok.2.symm, hok.2 ▸ hinv⟩

/-- Witness for C8 at a concrete one-session manager: `start`,
`add_raw_chunk` (returning index 1 = prior chunk count), `set_partial` and
`stop` all preserve the invariant. -/
theorem live_session_invariants_witness :
    (chunkPartialInv (startSession
        [("s1", ⟨"s1", "live_sessions/s1", ["chunk_0.webm"], [""]⟩)] "s2") ∧
    (∀ i mgr', addRawChunk
        [("s1", ⟨"s1", "live_sessions/s1", ["chunk_0.webm"], [""]⟩)] "s1" ".webm" = .ok (i, mgr') →
      chunkPartialInv mgr' ∧
      ∀ sess, lookupA "s1"
          [("s1", (⟨"s1", "live_sessions/s1", ["chunk_0.webm"], [""]⟩ : LiveSession))] = some sess →
        i = sess.chunks.length) ∧
    (∀ mgr', setPartial
        [("s1", ⟨"s1", "live_sessions/s1", ["chunk_0.webm"], [""]⟩)] "s1" 3 "hi" = .ok mgr' →
      chunkPartialInv mgr') ∧
    (∀ r mgr', stopSession
        [("s1", ⟨"s1", "live_sessions/s1", ["chunk_0.webm"], [""]⟩)] "s1" = .ok (r, mgr') →
      mgr' = [("s1", ⟨"s1", "live_sessions/s1", ["chunk_0.webm"], [""]⟩)] ∧
      chunkPartialInv mgr')) :=
  live_session_invariants _ "s1" "s2" ".webm" 3 "hi" (by decide)

/-! ### Order-independence of partial arrival (C7) -/

/-- First-match lookup on index-keyed assignments (used to characterize a
batch of `set_partial` calls with pairwise-distinct indices). -/
def lookupN (i : Nat) : List (Nat × String) → Option String
  | [] => none
  | (j, t) :: rest => if i = j then some t else lookupN i rest

theorem lookupN_eq_none_iff (i : Nat) (ops : List (Nat × String)) :
    lookupN i ops = none ↔ i ∉ ops.map Prod.fst := by
  induction ops with
  | nil => simp [lookupN]
  | cons op rest ih =>
    obtain ⟨j, t⟩ := op
    by_cases hij : i = j
    · subst hij
      simp [lookupN]
    · simp [lookupN, if_neg hij, ih, hij]

theorem lookupN_eq_some_iff (i : Nat) (t : String) (ops : List (Nat × String))
    (hnd : (ops.map Prod.fst).Nodup) : lookupN i ops = some t ↔ (i, t) ∈ ops := by
  induction ops with
  | nil => simp [lookupN]
  | cons op rest ih =>
    obtain ⟨j, u⟩ := op
    have hnd1 : (j :: rest.map Prod.fst).Nodup := by simpa using hnd
    obtain ⟨hhead, htail⟩ := List.nodup_cons.mp hnd1
    by_cases hij : i = j
    · subst hij
      rw [lookupN, if_pos rfl]
      constructor
      · intro h
        rw [← Option.some_inj.mp h]
        exact List.mem_cons_self _ _
      · intro h
        rcases List.mem_cons.mp h with h | h
        · have ht : t = u := congrArg Prod.snd h
          rw [ht]
        · exact absurd (List.mem_map.mpr ⟨(i, t), h, rfl⟩) hhead
    · rw [lookupN, if_neg hij, ih htail]
      constructor
      · exact fun h => List.mem_cons_of_mem _ h
      · intro h
        rcases List.mem_cons.mp h with h | h
        · exact absurd (congrArg Prod.fst h) hij
        · exact h

theorem lookupN_perm (i : Nat) (ops1 ops2 : List (Nat × String))
    (h : ops1.Perm ops2) (hnd : (ops1.map Prod.fst).Nodup) :
    lookupN i ops1 = lookupN i ops2 := by
  have hnd2 : (ops2.map Prod.fst).Nodup := ((h.map Prod.fst).nodup_iff).mp hnd
  cases hx : lookupN i ops2 with
  | none =>
    rw [lookupN_eq_none_iff] at hx ⊢
    exact fun hmem => hx (((h.map Prod.fst).mem_iff).mp hmem)
  | some t =>
    rw [lookupN_eq_some_iff i t ops2 hnd2] at hx
    exact (lookupN_eq_some_iff i t ops1 hnd).mpr (h.mem_iff.mpr hx)

theorem length_padTo (ps : List String) (n : Nat) :
    (padTo ps n).length = max ps.length n := by
  simp only [padTo, List.length_append, List.length_replicate]
  omega

theorem getD_replicate_empty (k m : Nat) :
    (List.replicate k ("" : String)).getD m "" = "" := by
  rcases Nat.lt_or_ge m k with hm | hm
  · rw [List.getD_eq_getElem _ _ (by simpa using hm)]
    simp
  · rw [List.getD_eq_default _ _ (by simpa using hm)]

theorem getD_padTo (ps : List String) (n i : Nat) :
    (padTo ps n).getD i "" = ps.getD i "" := by
  rcases Nat.lt_or_ge i ps.length with h | h
  · rw [padTo, List.getD_append _ _ _ _ h]
  · rw [padTo, List.getD_append_right _ _ _ _ h, getD_replicate_empty,
      List.getD_eq_default _ _ h]

theorem length_setSlot (idx : Nat) (t : String) (ps : List String) :
    (setSlot idx t ps).length = max ps.length (idx + 1) := by
  simp only [setSlot, List.length_set, length_padTo]

theorem getD_setSlot_self (idx : Nat) (t : String) (ps : List String) :
    (setSlot idx t ps).getD idx "" = t := by
  have hlt : idx < ((padTo ps (idx + 1)).set idx t).length := by
    rw [List.length_set, length_padTo]
    omega
  rw [setSlot, List.getD_eq_getElem _ _ hlt]
  simp [List.getElem_set]

theorem getD_setSlot_ne (idx : Nat) (t : String) (ps : List String) (j : Nat)
    (h : j ≠ idx) : (setSlot idx t ps).getD j "" = ps.getD j "" := by
  have hstep : ((padTo ps (idx + 1)).set idx t).getD j "" =
      (padTo ps (idx + 1)).getD j "" := by
    rcases Nat.lt_or_ge j (padTo ps (idx + 1)).length with hj | hj
    · rw [List.getD_eq_getElem _ _ (by simpa using hj), List.getD_eq_getElem _ _ hj]
      simp [List.getElem_set, h.symm]
    · rw [List.getD_eq_default _ _ (by simpa using hj), List.getD_eq_default _ _ hj]
  rw [setSlot, hstep, getD_padTo]

theorem applySlots_cons (op : Nat × String) (ops : List (Nat × String))
    (ps : List String) :
    applySlots (op :: ops) ps = applySlots ops (setSlot op.1 op.2 ps) := rfl

theorem length_applySlots (ops : List (Nat × String)) :
    ∀ ps : List String, (applySlots ops ps).length =
      ops.foldl (fun n op => max n (op.1 + 1)) ps.length := by
  induction ops with
  | nil => intro ps; rfl
  | cons op rest ih =>
    intro ps
    rw [applySlots_cons, ih, List.foldl_cons, length_setSlot]

theorem foldl_max_perm (ops1 ops2 : List (Nat × String)) (h : ops1.Perm ops2) :
    ∀ n : Nat, ops1.foldl (fun n op => max n (op.1 + 1)) n =
      ops2.foldl (fun n op => max n (op.1 + 1)) n := by
  induction h with
  | nil => intro n; rfl
  | cons x h ih =>
    intro n
    simp only [List.foldl_cons]
    exact ih _
  | swap x y l =>
    intro n
    simp only [List.foldl_cons]
    rw [Nat.max_right_comm]
  | trans h1 h2 ih1 ih2 =>
    intro n
    rw [ih1 n, ih2 n]

theorem getD_applySlots (ops : List (Nat × String)) :
    ∀ (ps : List String) (i : Nat), (ops.map Prod.fst).Nodup →
      (applySlots ops ps).getD i "" =
        match lookupN i ops with
        | some t => t
        | none => ps.getD i "" := by
  induction ops with
  | nil => intro ps i _; rfl
  | cons op rest ih =>
    intro ps i hnd
    obtain ⟨j, t⟩ := op
    have hnd1 : (j :: rest.map Prod.fst).Nodup := by simpa using hnd
    obtain ⟨hhead, htail⟩ := List.nodup_cons.mp hnd1
    rw [applySlots_cons, ih (setSlot j t ps) i htail]
    by_cases hij : i = j
    · subst hij
      have hnone : lookupN i rest = none := (lookupN_eq_none_iff i rest).mpr hhead
      simp only [hnone, lookupN, if_pos rfl]
      exact getD_setSlot_self i t ps
    · simp only [lookupN, if_neg hij]
      cases hx : lookupN i rest with
      | some u => simp only [hx]
      | none =>
        simp only [hx]
        exact getD_setSlot_ne j t ps i hij

theorem applySlots_perm (ops1 ops2 : List (Nat × String)) (ps : List String)
    (h : ops1.Perm ops2) (hnd : (ops1.map Prod.fst).Nodup) :
    applySlots ops1 ps = applySlots ops2 ps := by
  have hlen : (applySlots ops1 ps).length = (applySlots ops2 ps).length := by
    rw [length_applySlots, length_applySlots, foldl_max_perm _ _ h]
  apply List.ext_getElem hlen
  intro n h1 h2
  have g1 := getD_applySlots ops1 ps n hnd
  have g2 := getD_applySlots ops2 ps n (((h.map Prod.fst).nodup_iff).mp hnd)
  rw [List.getD_eq_getElem _ _ h1] at g1
  rw [List.getD_eq_getElem _ _ h2] at g2
  rw [g1, g2, lookupN_perm n ops1 ops2 h hnd]

theorem applySetPartials_ok (ops : List (Nat × String)) :
    ∀ (mgr : Sessions) (sid : String) (sess : LiveSession),
      lookupA sid mgr = some sess →
      applySetPartials mgr sid ops =
        .ok (setA sid { sess with partials := applySlots ops sess.partials } mgr) := by
  induction ops with
  | nil =>
    intro mgr sid sess hs
    have heta : ({ sess with partials := applySlots [] sess.partials } : LiveSession) = sess := rfl
    rw [applySetPartials, heta, setA_of_lookupA_eq _ _ _ hs]
  | cons op rest ih =>
    intro mgr sid sess hs
    have step : setPartial mgr sid op.1 op.2 =
        .ok (setA sid { sess with partials := setSlot op.1 op.2 sess.partials } mgr) := by
      simp only [setPartial, hs]
    simp only [applySetPartials, step]
    rw [ih _ sid _ (lookupA_setA_self _ _ _)]
    rw [setA_setA]
    rfl

/-- C7: for every live session, `stop` returns (without deleting the
session's state — the sessions map comes back unchanged) the final text
formed by joining, with single spaces and trimmed, exactly the non-empty
partials in strictly increasing index order; and the session state reached
by a batch of `set_partial` calls with pairwise-distinct indices is
independent of the order in which the calls arrived. -/
theorem stop_final_text_order_independent (mgr : Sessions) (sid : String)
    (sess : LiveSession) (ops1 ops2 : List (Nat × String))
    (hs : lookupA sid mgr = some sess)
    (hperm : ops1.Perm ops2)
    (hnd : (ops1.map Prod.fst).Nodup) :
    applySetPartials mgr sid ops1 = applySetPartials mgr sid ops2 ∧
    (∀ mgr', applySetPartials mgr sid ops1 = .ok mgr' →
      ∀ sess', lookupA sid mgr' = some sess' →
        stopSession mgr' sid =
          .ok ((String.intercalate " "
              (sess'.partials.filter (fun p => decide (p ≠ "")))).trim, mgr')) := by
  constructor
  · rw [applySetPartials_ok ops1 mgr sid sess hs, applySetPartials_ok ops2 mgr sid sess hs,
      applySlots_perm ops1 ops2 sess.partials hperm hnd]
  · intro mgr' _ sess' hsess'
    have hf : sess'.partials.filter (fun p => !p.isEmpty) =
        sess'.partials.filter (fun p => decide (p ≠ "")) := by
      apply List.filter_congr
      intro p _
      by_cases hp : p = ""
      · simp [hp, (String.isEmpty_iff "").mpr rfl]
      · simp [hp, (String.isEmpty_iff p).not.mpr hp, Bool.not_eq_true]
    simp only [stopSession, hsess', hf]

/-- Witness for C7, mirroring spec Scenario E: three chunk slots, the
partial for chunk 1 arriving before chunk 0; both arrival orders produce the
same state and `stop` returns `"chunk0 chunk1 chunk2"` in index order. -/
theorem stop_final_text_order_independent_witness :
    (applySetPartials
        [("s1", ⟨"s1", "live_sessions/s1",
          ["chunk_0.webm", "chunk_1.webm", "chunk_2.webm"], ["", "", ""]⟩)] "s1"
        [(1, "chunk1"), (0, "chunk0"), (2, "chunk2")] =
      applySetPartials
        [("s1", ⟨"s1", "live_sessions/s1",
          ["chunk_0.webm", "chunk_1.webm", "chunk_2.webm"], ["", "", ""]⟩)] "s1"
        [(0, "chunk0"), (1, "chunk1"), (2, "chunk2")]) ∧
    (∀ mgr', applySetPartials
        [("s1", ⟨"s1", "live_sessions/s1",
          ["chunk_0.webm", "chunk_1.webm", "chunk_2.webm"], ["", "", ""]⟩)] "s1"
        [(1, "chunk1"), (0, "chunk0"), (2, "chunk2")] = .ok mgr' →
      ∀ sess', lookupA "s1" mgr' = some sess' →
        stopSession mgr' "s1" =
          .ok ((String.intercalate " "
              (sess'.partials.filter (fun p => decide (p ≠ "")))).trim, mgr')) :=
  stop_final_text_order_independent _ "s1"
    ⟨"s1", "live_sessions/s1", ["chunk_0.webm", "chunk_1.webm", "chunk_2.webm"], ["", "", ""]⟩
    [(1, "chunk1"), (0, "chunk0"), (2, "chunk2")]
    [(0, "chunk0"), (1, "chunk1"), (2, "chunk2")]
    (by decide) (by decide) (by decide)

/-! ## The pipeline orchestrator

`AudioProcessingPipeline.process_audio_file` (pipeline_orchestrator.py,
lines 243–295) and its four step methods (lines 297–482).  The external
collaborators the steps call — `upload.py` (`AudioUploadHandler`),
`audio_processor.py` (`AudioProcessor`), `db_integration.py`
(`DatabaseIntegration`) — are not part of the embedded sources; following
the spec's collaborator contracts (spec §6) each call site is given its
outcome by an oracle environment, with retried operations indexed by
invocation number.  Each result structure keeps exactly the dict keys the
orchestrator reads. -/

/-- `validate_upload` outcome fields read by `_step_upload`. -/
structure ValidationResult where
  is_valid : Bool
  errors : String
  file_info : String
deriving Repr, DecidableEq

/-- `_step_upload`'s result dict (the `validation_passed` and
`call_record_created` keys are the constant `True` in the source). -/
structure UploadResult where
  file_path : String
  file_info : String
deriving Repr, DecidableEq

/-- `convert_audio_format` outcome field read by `_step_audio_processing`
(`conversion_result.get("output_path", file_path)`). -/
structure ConversionResult where
  output_path : Option String
deriving Repr, DecidableEq

/-- `_step_audio_processing`'s result dict. -/
structure ProcessingResult where
  analysis : String
  conversion : ConversionResult
  segments : String
  processed_file_path : String
deriving Repr, DecidableEq

/-- The dict `WhisperProcessor.transcribe_audio` returns, restricted to the
keys the orchestrator reads: `transcription_success`, `text` (may be
absent), `language` (may be absent), `error` (may be absent). -/
structure WhisperResult where
  transcription_success : Bool
  text : Option String
  language : Option String
  error : Option String
deriving Repr, DecidableEq

/-- The dict `WhisperProcessor.save_transcript` returns; it never raises
(its body is wrapped in a catch-all returning `save_success=False`). -/
structure SaveTranscriptResult where
  save_success : Bool
  transcript_path : Option String
  error : Option String
deriving Repr, DecidableEq

/-- A `db_integration.store_*` result dict (`{success}` per spec §6). -/
structure StoreResult where
  success : Bool
deriving Repr, DecidableEq

/-- `_step_transcription`'s result dict. -/
structure TranscriptionStepResult where
  transcript : WhisperResult
  transcript_path : SaveTranscriptResult
  transcription_text : String
  language : String
deriving Repr, DecidableEq

/-- `_step_database_storage`'s result dict. -/
structure StorageStepResult where
  transcript_stored : StoreResult
  analysis_stored : StoreResult
deriving Repr, DecidableEq

/-- The step-result payload stored by `complete_step`, tagged by step. -/
inductive StepResultData where
  | upload (r : UploadResult)
  | audio (r : ProcessingResult)
  | transcription (r : TranscriptionStepResult)
  | storage (r : StorageStepResult)
deriving Repr, DecidableEq

/-- Modelled from the spec: the outcomes of the external collaborator calls
the orchestrator makes.  The collaborator modules `upload.py`,
`audio_processor.py` and `db_integration.py` are not among the embedded
sources; spec §6 gives their contracts (`validate`, `save`, `create_record`,
`analyze`, `convert`, `extract_segment`, `update_status`, `store_transcript`,
`store_analysis`).  Every call an `await`ed collaborator method may either
return its result dict or raise, so each call site is one `Except` field;
operations wrapped in `_retry_operation` get one outcome per invocation
index.  The `transcriptionEnabled` flag is the
`SIGNALHUB_ENABLE_TRANSCRIPTION` feature flag read by
`whisper_processor._transcription_enabled`. -/
structure PipelineEnv where
  transcriptionEnabled : Bool
  validate : Except PyErr ValidationResult
  saveFile : Except PyErr String
  createRecord : Except PyErr Unit
  updUploaded : Except PyErr Unit
  getFilePath : Except PyErr String
  updProcessing : Except PyErr Unit
  analyzeOp : Nat → Except PyErr String
  convertOp : Nat → Except PyErr ConversionResult
  segmentOp : Nat → Except PyErr String
  getProcessedPath : Except PyErr String
  updTranscribing : Except PyErr Unit
  engineOp : Nat → Except PyErr WhisperResult
  saveTranscript : SaveTranscriptResult
  storeTranscriptOp : Nat → Except PyErr StoreResult
  storeAnalysisOp : Nat → Except PyErr StoreResult
  updCompleted : Except PyErr Unit
  updFailedUpload : Except PyErr Unit
  updFailedProcessing : Except PyErr Unit
  updFailedTranscription : Except PyErr Unit
  updFailedStorage : Except PyErr Unit
  updFailedHandler : Except PyErr Unit

/-- `WhisperProcessor.transcribe_audio` (whisper_processor.py, lines
224–274) at the granularity the orchestrator observes: with the feature
flag off it returns — without raising — a result dict with
`transcription_success=False`, the error message `"Transcription disabled
(env flag)"`, and no `text` key; with the flag on, the model-load and
decode path is the engine collaborator's outcome. -/
def transcribeAudio (enabled : Bool) (engine : Except PyErr WhisperResult) :
    Except PyErr WhisperResult :=
  if !enabled then
    .ok { transcription_success := false, text := none, language := none,
          error := some "Transcription disabled (env flag)" }
  else
    engine

/-- The `try` block of `_step_upload` (lines 303–337): validate (raising
`ValueError` on an invalid file), save, create the call record, update the
persisted status to `"uploaded"`. -/
def uploadTry (env : PipelineEnv) : Except PyErr UploadResult := do
  let v ← env.validate
  if !v.is_valid then
    throw ⟨"ValueError", "File validation failed: " ++ v.errors⟩
  let fp ← env.saveFile
  let _ ← env.createRecord
  let _ ← env.updUploaded
  pure { file_path := fp, file_info := v.file_info }

/-- The `try` block of `_step_audio_processing` (lines 350–395): fetch the
stored file path, update the persisted status, then run analysis,
conversion and segmentation through `_retry_operation` with budgets 3, 2, 2;
the effective processed path is the conversion output if present, else the
original path. -/
def audioTry (env : PipelineEnv) : Except PyErr ProcessingResult := do
  let fp ← env.getFilePath
  let _ ← env.updProcessing
  let ar ← (retryOperation env.analyzeOp "audio_analysis" 3).result
  let cr ← (retryOperation env.convertOp "audio_conversion" 2).result
  let sr ← (retryOperation env.segmentOp "audio_segmentation" 2).result
  pure { analysis := ar, conversion := cr, segments := sr,
         processed_file_path := cr.output_path.getD fp }

/-- The `try` block of `_step_transcription` (lines 408–437): fetch the
processed path, update the persisted status, transcribe through
`_retry_operation` with budget 2, save the transcript (never raises), and
read `text` / `language` out of the transcription dict with defaults `""`
and `"unknown"`. -/
def transcriptionTry (env : PipelineEnv) : Except PyErr TranscriptionStepResult := do
  let _path ← env.getProcessedPath
  let _ ← env.updTranscribing
  let tr ← (retryOperation
      (fun i => transcribeAudio env.transcriptionEnabled (env.engineOp i))
      "transcription" 2).result
  let tp := env.saveTranscript
  pure { transcript := tr, transcript_path := tp,
         transcription_text := tr.text.getD "",
         language := tr.language.getD "unknown" }

/-- The `try` block of `_step_database_storage` (lines 450–477): store the
transcript and the analysis through `_retry_operation` with budget 3 each,
then update the persisted status to `"completed"`. -/
def storageTry (env : PipelineEnv) : Except PyErr StorageStepResult := do
  let ts ← (retryOperation env.storeTranscriptOp "transcript_storage" 3).result
  let an ← (retryOperation env.storeAnalysisOp "analysis_storage" 3).result
  let _ ← env.updCompleted
  pure { transcript_stored := ts, analysis_stored := an }

/-- The orchestrator-visible state threaded through one
`process_audio_file` run: the status tracker, a tick counter standing in
for wall-clock timestamps, the `pipeline_data` store, the record of
`update_call_status(..., "failed")` attempts `(site, call returned)` made
in step handlers and in `_handle_pipeline_error`, and whether
`_handle_pipeline_error` logged a failure of its own status update. -/
structure PipeState where
  tracker : TrackerState StepResultData
  clock : Nat
  pipeline_data : List (String × String)
  statusFailedCalls : List (String × Bool)
  handlerFailureLogged : Bool
deriving DecidableEq

/-- State at the start of a run. -/
def initState : PipeState :=
  { tracker := emptyTracker, clock := 0, pipeline_data := [],
    statusFailedCalls := [], handlerFailureLogged := false }

/-- The shared `except` clause of the four step methods (e.g. lines
339–342): `fail_step`, then `await update_call_status(call_id, "failed",
error=...)` — this `await` is **not** wrapped in a `try`, so if the status
update itself raises, its exception propagates in place of the step's
original error — then re-raise.  Returns the error that actually escapes
the step. -/
def handleStepFailure (st : PipeState) (c name : String) (e : PyErr)
    (upd : Except PyErr Unit) : PipeState × PyErr :=
  let st := { st with
    tracker := failStep st.tracker c name e st.clock,
    clock := st.clock + 1 }
  match upd with
  | .ok _ => ({ st with statusFailedCalls := st.statusFailedCalls ++ [(name, true)] }, e)
  | .error e2 => ({ st with statusFailedCalls := st.statusFailedCalls ++ [(name, false)] }, e2)

/-- The shared shape of the four step methods: `start_step`; run the `try`
block; on success, apply the success-path `pipeline_data` effect, record
`complete_step` and return the result; on failure, run the `except` clause
(`handleStepFailure`) and propagate the error it produces. -/
def runStep (name : String) (tryResult : Except PyErr ρ)
    (upd : Except PyErr Unit) (mk : ρ → StepResultData)
    (postOk : List (String × String) → ρ → List (String × String))
    (c : String) (st : PipeState) : PipeState × Except PyErr ρ :=
  let st := { st with
    tracker := startStep st.tracker c name st.clock,
    clock := st.clock + 1 }
  match tryResult with
  | .ok r =>
    let st := { st with pipeline_data := postOk st.pipeline_data r }
    let st := { st with
      tracker := completeStep st.tracker c name (mk r) st.clock,
      clock := st.clock + 1 }
    (st, .ok r)
  | .error e =>
    let (st2, e2) := handleStepFailure st c name e upd
    (st2, .error e2)

/-- `_step_upload` (lines 297–342); its success path stores the file path
into `pipeline_data`. -/
def stepUpload (env : PipelineEnv) (c : String) (st : PipeState) :
    PipeState × Except PyErr UploadResult :=
  runStep "upload" (uploadTry env) env.updFailedUpload .upload
    (fun pd r => setA c r.file_path pd) c st

/-- `_step_audio_processing` (lines 344–400); its success path updates
`pipeline_data[call_id]` when the call id is present. -/
def stepAudioProcessing (env : PipelineEnv) (c : String) (st : PipeState) :
    PipeState × Except PyErr ProcessingResult :=
  runStep "audio_processing" (audioTry env) env.updFailedProcessing .audio
    (fun pd r => if (lookupA c pd).isSome then setA c r.processed_file_path pd else pd) c st

/-- `_step_transcription` (lines 402–442). -/
def stepTranscription (env : PipelineEnv) (c : String) (st : PipeState) :
    PipeState × Except PyErr TranscriptionStepResult :=
  runStep "transcription" (transcriptionTry env) env.updFailedTranscription .transcription
    (fun pd _ => pd) c st

/-- `_step_database_storage` (lines 444–482). -/
def stepDatabaseStorage (env : PipelineEnv) (c : String) (st : PipeState) :
    PipeState × Except PyErr StorageStepResult :=
  runStep "database_storage" (storageTry env) env.updFailedStorage .storage
    (fun pd _ => pd) c st

/-- The summary `_compile_pipeline_result` builds (lines 513–551),
restricted to the fields the claims read. -/
structure FinalSummary where
  call_id : String
  pipeline_status : String
  transcription_text_length : Nat
  transcription_language : String
  transcript_stored : Bool
  analysis_stored : Bool
  overall : String
deriving Repr, DecidableEq

/-- The `except` clause of `process_audio_file` (lines 291–295) together
with `_handle_pipeline_error` (lines 553–570): a best-effort
`update_call_status(call_id, "failed", ...)` whose own failure is caught
and logged — never re-raised — after which the original exception is
re-raised unchanged. -/
def pipelineCatch (env : PipelineEnv) (st : PipeState) (e : PyErr) :
    PipeState × Except PyErr FinalSummary :=
  match env.updFailedHandler with
  | .ok _ =>
    ({ st with statusFailedCalls := st.statusFailedCalls ++ [("handler", true)] }, .error e)
  | .error _ =>
    ({ st with
      statusFailedCalls := st.statusFailedCalls ++ [("handler", false)],
      handlerFailureLogged := true }, .error e)

/-- `process_audio_file` (lines 243–295): run the four steps in order,
stopping at the first one whose call raises; compile the final summary on
full success; on any exception run the catch path and re-raise. -/
def processAudioFile (env : PipelineEnv) (c : String) :
    PipeState × Except PyErr FinalSummary :=
  match stepUpload env c initState with
  | (st, .error e) => pipelineCatch env st e
  | (st, .ok _r1) =>
    match stepAudioProcessing env c st with
    | (st, .error e) => pipelineCatch env st e
    | (st, .ok _r2) =>
      match stepTranscription env c st with
      | (st, .error e) => pipelineCatch env st e
      | (st, .ok r3) =>
        match stepDatabaseStorage env c st with
        | (st, .error e) => pipelineCatch env st e
        | (st, .ok r4) =>
          (st, .ok { call_id := c, pipeline_status := "completed",
                     transcription_text_length := r3.transcription_text.length,
                     transcription_language := r3.language,
                     transcript_stored := r4.transcript_stored.success,
                     analysis_stored := r4.analysis_stored.success,
                     overall := getOverallStatus st.tracker c })

/-- The name of step `k` in the fixed order. -/
def stepName : Fin 4 → String
  | 0 => "upload"
  | 1 => "audio_processing"
  | 2 => "transcription"
  | 3 => "database_storage"

/-- The error raised by step `k`'s `try` block, if any. -/
def tryErr (env : PipelineEnv) : Fin 4 → Option PyErr
  | 0 => match uploadTry env with | .ok _ => none | .error e => some e
  | 1 => match audioTry env with | .ok _ => none | .error e => some e
  | 2 => match transcriptionTry env with | .ok _ => none | .error e => some e
  | 3 => match storageTry env with | .ok _ => none | .error e => some e

/-- The outcome of the `update_call_status(..., "failed")` call in step
`k`'s `except` clause. -/
def stepUpdFailed (env : PipelineEnv) : Fin 4 → Except PyErr Unit
  | 0 => env.updFailedUpload
  | 1 => env.updFailedProcessing
  | 2 => env.updFailedTranscription
  | 3 => env.updFailedStorage

/-- The exception that escapes step `k` towards `process_audio_file`, if
any: the `try` block's error, unless the `except` clause's own status
update raises, in which case that error escapes instead. -/
def stepExcErr (env : PipelineEnv) (k : Fin 4) : Option PyErr :=
  match tryErr env k with
  | none => none
  | some e =>
    match stepUpdFailed env k with
    | .ok _ => some e
    | .error e2 => some e2

theorem runStep_ok {ρ : Type} (name : String) (tryResult : Except PyErr ρ)
    (upd : Except PyErr Unit) (mk : ρ → StepResultData)
    (postOk : List (String × String) → ρ → List (String × String))
    (c : String) (st : PipeState) (r : ρ) (h : tryResult = .ok r) :
    (runStep name tryResult upd mk postOk c st).2 = .ok r ∧
    (runStep name tryResult upd mk postOk c st).1.tracker =
      completeStep (startStep st.tracker c name st.clock) c name (mk r) (st.clock + 1) ∧
    (runStep name tryResult upd mk postOk c st).1.statusFailedCalls = st.statusFailedCalls ∧
    (runStep name tryResult upd mk postOk c st).1.handlerFailureLogged =
      st.handlerFailureLogged := by
  simp [runStep, h]

theorem runStep_err {ρ : Type} (name : String) (tryResult : Except PyErr ρ)
    (upd : Except PyErr Unit) (mk : ρ → StepResultData)
    (postOk : List (String × String) → ρ → List (String × String))
    (c : String) (st : PipeState) (e : PyErr) (h : tryResult = .error e) :
    (runStep name tryResult upd mk postOk c st).2 =
      .error (match upd with | .ok _ => e | .error e2 => e2) ∧
    (runStep name tryResult upd mk postOk c st).1.tracker =
      failStep (startStep st.tracker c name st.clock) c name e (st.clock + 1) ∧
    (runStep name tryResult upd mk postOk c st).1.statusFailedCalls =
      st.statusFailedCalls ++ [(name, upd.isOk)] ∧
    (runStep name tryResult upd mk postOk c st).1.handlerFailureLogged =
      st.handlerFailureLogged := by
  cases hu : upd <;> simp [runStep, handleStepFailure, h, hu, Except.isOk, Except.toBool]

theorem pipelineCatch_spec (env : PipelineEnv) (st : PipeState) (e : PyErr) :
    (pipelineCatch env st e).2 = .error e ∧
    (pipelineCatch env st e).1.tracker = st.tracker ∧
    (pipelineCatch env st e).1.statusFailedCalls =
      st.statusFailedCalls ++ [("handler", env.updFailedHandler.isOk)] ∧
    (env.updFailedHandler.isOk = false →
      (pipelineCatch env st e).1.handlerFailureLogged = true) := by
  cases hH : env.updFailedHandler <;> simp [pipelineCatch, hH, Except.isOk, Except.toBool]

theorem stepExcErr_eq_none (env : PipelineEnv) (k : Fin 4) :
    stepExcErr env k = none ↔ tryErr env k = none := by
  unfold stepExcErr
  cases h : tryErr env k with
  | none => simp
  | some e => cases h2 : stepUpdFailed env k <;> simp

theorem pipeline_fail_at_upload (env : PipelineEnv) (c : String) (e0 e : PyErr)
    (ht : uploadTry env = .error e0)
    (he : (match env.updFailedUpload with | .ok _ => e0 | .error e2 => e2) = e) :
    (processAudioFile env c).2 = .error e ∧
    statusOf (processAudioFile env c).1.tracker c "upload" = some "failed" ∧
    ("upload", env.updFailedUpload.isOk) ∈ (processAudioFile env c).1.statusFailedCalls ∧
    ("handler", env.updFailedHandler.isOk) ∈ (processAudioFile env c).1.statusFailedCalls ∧
    (env.updFailedHandler.isOk = false →
      (processAudioFile env c).1.handlerFailureLogged = true) := by
  obtain ⟨hsnd, htr, hcalls, _⟩ := runStep_err "upload" (uploadTry env) env.updFailedUpload
    .upload (fun pd r => setA c r.file_path pd) c initState e0 ht
  cases hS : stepUpload env c initState with
  | mk stA resA =>
    rw [stepUpload] at hS
    rw [hS] at hsnd htr hcalls
    dsimp only at hsnd htr hcalls
    rw [he] at hsnd
    subst hsnd
    simp only [processAudioFile, stepUpload, hS]
    obtain ⟨hc1, hc2, hc3, hc4⟩ := pipelineCatch_spec env stA e
    refine ⟨hc1, ?_, ?_, ?_, hc4⟩
    · rw [hc2, htr]
      exact statusOf_failStep_self _ c "upload" e0 _ "running"
        (statusOf_startStep_self _ c "upload" _)
    · rw [hc3, hcalls]
      simp
    · rw [hc3]
      simp

theorem pipeline_fail_at_audio (env : PipelineEnv) (c : String) (r1 : UploadResult)
    (e0 e : PyErr) (hu : uploadTry env = .ok r1) (ht : audioTry env = .error e0)
    (he : (match env.updFailedProcessing with | .ok _ => e0 | .error e2 => e2) = e) :
    (processAudioFile env c).2 = .error e ∧
    statusOf (processAudioFile env c).1.tracker c "audio_processing" = some "failed" ∧
    ("audio_processing", env.updFailedProcessing.isOk) ∈
      (processAudioFile env c).1.statusFailedCalls ∧
    ("handler", env.updFailedHandler.isOk) ∈ (processAudioFile env c).1.statusFailedCalls ∧
    (env.updFailedHandler.isOk = false →
      (processAudioFile env c).1.handlerFailureLogged = true) := by
  obtain ⟨hsnd0, _, _, _⟩ := runStep_ok "upload" (uploadTry env) env.updFailedUpload
    .upload (fun pd r => setA c r.file_path pd) c initState r1 hu
  cases hS0 : stepUpload env c initState with
  | mk stA resA =>
    rw [stepUpload] at hS0
    rw [hS0] at hsnd0
    dsimp only at hsnd0
    subst hsnd0
    obtain ⟨hsnd, htr, hcalls, _⟩ := runStep_err "audio_processing" (audioTry env)
      env.updFailedProcessing .audio
      (fun pd r => if (lookupA c pd).isSome then setA c r.processed_file_path pd else pd)
      c stA e0 ht
    cases hS1 : stepAudioProcessing env c stA with
    | mk stB resB =>
      rw [stepAudioProcessing] at hS1
      rw [hS1] at hsnd htr hcalls
      dsimp only at hsnd htr hcalls
      rw [he] at hsnd
      subst hsnd
      simp only [processAudioFile, stepUpload, hS0, stepAudioProcessing, hS1]
      obtain ⟨hc1, hc2, hc3, hc4⟩ := pipelineCatch_spec env stB e
      refine ⟨hc1, ?_, ?_, ?_, hc4⟩
      · rw [hc2, htr]
        exact statusOf_failStep_self _ c "audio_processing" e0 _ "running"
          (statusOf_startStep_self _ c "audio_processing" _)
      · rw [hc3, hcalls]
        simp
      · rw [hc3]
        simp

theorem pipeline_fail_at_transcription (env : PipelineEnv) (c : String)
    (r1 : UploadResult) (r2 : ProcessingResult) (e0 e : PyErr)
    (hu : uploadTry env = .ok r1) (ha : audioTry env = .ok r2)
    (ht : transcriptionTry env = .error e0)
    (he : (match env.updFailedTranscription with | .ok _ => e0 | .error e2 => e2) = e) :
    (processAudioFile env c).2 = .error e ∧
    statusOf (processAudioFile env c).1.tracker c "transcription" = some "failed" ∧
    ("transcription", env.updFailedTranscription.isOk) ∈
      (processAudioFile env c).1.statusFailedCalls ∧
    ("handler", env.updFailedHandler.isOk) ∈ (processAudioFile env c).1.statusFailedCalls ∧
    (env.updFailedHandler.isOk = false →
      (processAudioFile env c).1.handlerFailureLogged = true) := by
  obtain ⟨hsnd0, _, _, _⟩ := runStep_ok "upload" (uploadTry env) env.updFailedUpload
    .upload (fun pd r => setA c r.file_path pd) c initState r1 hu
  cases hS0 : stepUpload env c initState with
  | mk stA resA =>
    rw [stepUpload] at hS0
    rw [hS0] at hsnd0
    dsimp only at hsnd0
    subst hsnd0
    obtain ⟨hsnd1, _, _, _⟩ := runStep_ok "audio_processing" (audioTry env)
      env.updFailedProcessing .audio
      (fun pd r => if (lookupA c pd).isSome then setA c r.processed_file_path pd else pd)
      c stA r2 ha
    cases hS1 : stepAudioProcessing env c stA with
    | mk stB resB =>
      rw [stepAudioProcessing] at hS1
      rw [hS1] at hsnd1
      dsimp only at hsnd1
      subst hsnd1
      obtain ⟨hsnd, htr, hcalls, _⟩ := runStep_err "transcription" (transcriptionTry env)
        env.updFailedTranscription .transcription (fun pd _ => pd) c stB e0 ht
      cases hS2 : stepTranscription env c stB with
      | mk stC resC =>
        rw [stepTranscription] at hS2
        rw [hS2] at hsnd htr hcalls
        dsimp only at hsnd htr hcalls
        rw [he] at hsnd
        subst hsnd
        simp only [processAudioFile, stepUpload, hS0, stepAudioProcessing, hS1,
          stepTranscription, hS2]
        obtain ⟨hc1, hc2, hc3, hc4⟩ := pipelineCatch_spec env stC e
        refine ⟨hc1, ?_, ?_, ?_, hc4⟩
        · rw [hc2, htr]
          exact statusOf_failStep_self _ c "transcription" e0 _ "running"
            (statusOf_startStep_self _ c "transcription" _)
        · rw [hc3, hcalls]
          simp
        · rw [hc3]
          simp

theorem pipeline_fail_at_storage (env : PipelineEnv) (c : String)
    (r1 : UploadResult) (r2 : ProcessingResult) (r3 : TranscriptionStepResult)
    (e0 e : PyErr)
    (hu : uploadTry env = .ok r1) (ha : audioTry env = .ok r2)
    (htr3 : transcriptionTry env = .ok r3)
    (ht : storageTry env = .error e0)
    (he : (match env.updFailedStorage with | .ok _ => e0 | .error e2 => e2) = e) :
    (processAudioFile env c).2 = .error e ∧
    statusOf (processAudioFile env c).1.tracker c "database_storage" = some "failed" ∧
    ("database_storage", env.updFailedStorage.isOk) ∈
      (processAudioFile env c).1.statusFailedCalls ∧
    ("handler", env.updFailedHandler.isOk) ∈ (processAudioFile env c).1.statusFailedCalls ∧
    (env.updFailedHandler.isOk = false →
      (processAudioFile env c).1.handlerFailureLogged = true) := by
  obtain ⟨hsnd0, _, _, _⟩ := runStep_ok "upload" (uploadTry env) env.updFailedUpload
    .upload (fun pd r => setA c r.file_path pd) c initState r1 hu
  cases hS0 : stepUpload env c initState with
  | mk stA resA =>
    rw [stepUpload] at hS0
    rw [hS0] at hsnd0
    dsimp only at hsnd0
    subst hsnd0
    obtain ⟨hsnd1, _, _, _⟩ := runStep_ok "audio_processing" (audioTry env)
      env.updFailedProcessing .audio
      (fun pd r => if (lookupA c pd).isSome then setA c r.processed_file_path pd else pd)
      c stA r2 ha
    cases hS1 : stepAudioProcessing env c stA with
    | mk stB resB =>
      rw [stepAudioProcessing] at hS1
      rw [hS1] at hsnd1
      dsimp only at hsnd1
      subst hsnd1
      obtain ⟨hsnd2, _, _, _⟩ := runStep_ok "transcription" (transcriptionTry env)
        env.updFailedTranscription .transcription (fun pd _ => pd) c stB r3 htr3
      cases hS2 : stepTranscription env c stB with
      | mk stC resC =>
        rw [stepTranscription] at hS2
        rw [hS2] at hsnd2
        dsimp only at hsnd2
        subst hsnd2
        obtain ⟨hsnd, htr, hcalls, _⟩ := runStep_err "database_storage" (storageTry env)
          env.updFailedStorage .storage (fun pd _ => pd) c stC e0 ht
        cases hS3 : stepDatabaseStorage env c stC with
        | mk stD resD =>
          rw [stepDatabaseStorage] at hS3
          rw [hS3] at hsnd htr hcalls
          dsimp only at hsnd htr hcalls
          rw [he] at hsnd
          subst hsnd
          simp only [processAudioFile, stepUpload, hS0, stepAudioProcessing, hS1,
            stepTranscription, hS2, stepDatabaseStorage, hS3]
          obtain ⟨hc1, hc2, hc3, hc4⟩ := pipelineCatch_spec env stD e
          refine ⟨hc1, ?_, ?_, ?_, hc4⟩
          · rw [hc2, htr]
            exact statusOf_failStep_self _ c "database_storage" e0 _ "running"
              (statusOf_startStep_self _ c "database_storage" _)
          · rw [hc3, hcalls]
            simp
          · rw [hc3]
            simp

/-- C1: whenever a pipeline step raises an unhandled exception `e` (the
first failing step of the run), `process_audio_file` re-raises exactly `e`
to its caller, the failing step is recorded as `"failed"` in the
StatusTracker, the persisted call status was updated to `"failed"` both in
the step's handler and — best-effort — in `_handle_pipeline_error`, and a
failure of the `_handle_pipeline_error` status update itself is logged and
never re-raised, so it cannot mask `e` (the conclusion holds for every
outcome of that update). -/
theorem pipeline_error_propagation (env : PipelineEnv) (c : String) (k : Fin 4)
    (e : PyErr) (hk : stepExcErr env k = some e)
    (hprev : ∀ j : Fin 4, j < k → stepExcErr env j = none) :
    (processAudioFile env c).2 = .error e ∧
    statusOf (processAudioFile env c).1.tracker c (stepName k) = some "failed" ∧
    (stepName k, (stepUpdFailed env k).isOk) ∈ (processAudioFile env c).1.statusFailedCalls ∧
    ("handler", env.updFailedHandler.isOk) ∈ (processAudioFile env c).1.statusFailedCalls ∧
    (env.updFailedHandler.isOk = false →
      (processAudioFile env c).1.handlerFailureLogged = true) := by
  have hnone : ∀ j : Fin 4, j < k → tryErr env j = none :=
    fun j hj => (stepExcErr_eq_none env j).mp (hprev j hj)
  fin_cases k
  · -- step 0: upload
    cases ht : uploadTry env with
    | ok r => simp [stepExcErr, tryErr, ht] at hk
    | error e0 =>
      have he : (match env.updFailedUpload with | .ok _ => e0 | .error e2 => e2) = e := by
        cases hu2 : env.updFailedUpload <;>
          simpa [stepExcErr, tryErr, stepUpdFailed, ht, hu2] using hk
      simpa [stepName, stepUpdFailed] using pipeline_fail_at_upload env c e0 e ht he
  · -- step 1: audio_processing
    have h0 : tryErr env 0 = none := hnone 0 (by decide)
    obtain ⟨r1, hu⟩ : ∃ r, uploadTry env = .ok r := by
      cases ht0 : uploadTry env with
      | ok r => exact ⟨r, rfl⟩
      | error e' => simp [tryErr, ht0] at h0
    cases ht : audioTry env with
    | ok r => simp [stepExcErr, tryErr, ht] at hk
    | error e0 =>
      have he : (match env.updFailedProcessing with | .ok _ => e0 | .error e2 => e2) = e := by
        cases hu2 : env.updFailedProcessing <;>
          simpa [stepExcErr, tryErr, stepUpdFailed, ht, hu2] using hk
      simpa [stepName, stepUpdFailed] using pipeline_fail_at_audio env c r1 e0 e hu ht he
  · -- step 2: transcription
    have h0 : tryErr env 0 = none := hnone 0 (by decide)
    have h1 : tryErr env 1 = none := hnone 1 (by decide)
    obtain ⟨r1, hu⟩ : ∃ r, uploadTry env = .ok r := by
      cases ht0 : uploadTry env with
      | ok r => exact ⟨r, rfl⟩
      | error e' => simp [tryErr, ht0] at h0
    obtain ⟨r2, ha⟩ : ∃ r, audioTry env = .ok r := by
      cases ht1 : audioTry env with
      | ok r => exact ⟨r, rfl⟩
      | error e' => simp [tryErr, ht1] at h1
    cases ht : transcriptionTry env with
    | ok r => simp [stepExcErr, tryErr, ht] at hk
    | error e0 =>
      have he : (match env.updFailedTranscription with | .ok _ => e0 | .error e2 => e2) = e := by
        cases hu2 : env.updFailedTranscription <;>
          simpa [stepExcErr, tryErr, stepUpdFailed, ht, hu2] using hk
      simpa [stepName, stepUpdFailed] using
        pipeline_fail_at_transcription env c r1 r2 e0 e hu ha ht he
  · -- step 3: database_storage
    have h0 : tryErr env 0 = none := hnone 0 (by decide)
    have h1 : tryErr env 1 = none := hnone 1 (by decide)
    have h2 : tryErr env 2 = none := hnone 2 (by decide)
    obtain ⟨r1, hu⟩ : ∃ r, uploadTry env = .ok r := by
      cases ht0 : uploadTry env with
      | ok r => exact ⟨r, rfl⟩
      | error e' => simp [tryErr, ht0] at h0
    obtain ⟨r2, ha⟩ : ∃ r, audioTry env = .ok r := by
      cases ht1 : audioTry env with
      | ok r => exact ⟨r, rfl⟩
      | error e' => simp [tryErr, ht1] at h1
    obtain ⟨r3, htr3⟩ : ∃ r, transcriptionTry env = .ok r := by
      cases ht2 : transcriptionTry env with
      | ok r => exact ⟨r, rfl⟩
      | error e' => simp [tryErr, ht2] at h2
    cases ht : storageTry env with
    | ok r => simp [stepExcErr, tryErr, ht] at hk
    | error e0 =>
      have he : (match env.updFailedStorage with | .ok _ => e0 | .error e2 => e2) = e := by
        cases hu2 : env.updFailedStorage <;>
          simpa [stepExcErr, tryErr, stepUpdFailed, ht, hu2] using hk
      simpa [stepName, stepUpdFailed] using
        pipeline_fail_at_storage env c r1 r2 r3 e0 e hu ha htr3 ht he

theorem statusOf_isSome_outer {ρ : Type} (tr : TrackerState ρ) (c s : String)
    (x : String) (h : statusOf tr c s = some x) :
    (lookupA c tr.step_status).isSome = true := by
  unfold statusOf at h
  cases hx : lookupA c tr.step_status with
  | none => rw [hx] at h; simp at h
  | some m => rfl

theorem resultOf_completeStep_self {ρ : Type} (tr : TrackerState ρ) (c s : String)
    (r : ρ) (t : Nat) (x : String) (h : statusOf tr c s = some x) :
    resultOf (completeStep tr c s r t) c s = some r := by
  unfold statusOf at h
  simp [completeStep, h, resultOf, setA2, lookupA_setA_self]

theorem resultOf_completeStep_ne {ρ : Type} (tr : TrackerState ρ) (c s : String)
    (r : ρ) (t : Nat) (c' s' : String) (h : ¬(c' = c ∧ s' = s)) :
    resultOf (completeStep tr c s r t) c' s' = resultOf tr c' s' := by
  cases hg : (lookupA c tr.step_status).bind (lookupA s) with
  | none => simp [completeStep, hg]
  | some x =>
    unfold completeStep
    rw [hg]
    by_cases hc : c' = c
    · subst hc
      have hs : s' ≠ s := fun hs => h ⟨rfl, hs⟩
      cases hm : lookupA c' tr.step_results with
      | none =>
        simp [resultOf, setA2, hm, lookupA_setA_self, lookupA_setA_ne _ _ _ _ hs, lookupA, hs]
      | some m0 =>
        simp [resultOf, setA2, hm, lookupA_setA_self, lookupA_setA_ne _ _ _ _ hs]
    · simp [resultOf, setA2, lookupA_setA_ne _ _ _ _ hc]

theorem resultOf_startStep_present {ρ : Type} (tr : TrackerState ρ) (c s : String)
    (t : Nat) (c' s' : String) (h : (lookupA c tr.step_status).isSome = true) :
    resultOf (startStep tr c s t) c' s' = resultOf tr c' s' := by
  have hn : (lookupA c tr.step_status).isNone = false := by
    cases hx : lookupA c tr.step_status with
    | none => rw [hx] at h; simp at h
    | some m => rfl
  simp [startStep, hn, resultOf]

/-- C9: with the transcription feature flag off and the other collaborators
well-behaved, the transcription step completes instead of aborting the run:
its stored result carries `transcription_success = false` with the error
message naming the disabled engine and an empty transcript text; the
`database_storage` step still runs to `"completed"`, and
`process_audio_file` returns a summary with transcript length 0. -/
theorem disabled_engine_degrades_gracefully (env : PipelineEnv) (c : String)
    (r1 : UploadResult) (r2 : ProcessingResult) (p : String)
    (ts an : StoreResult)
    (hdis : env.transcriptionEnabled = false)
    (hu : uploadTry env = .ok r1)
    (ha : audioTry env = .ok r2)
    (hp : env.getProcessedPath = .ok p)
    (htu : env.updTranscribing = .ok ())
    (hst : (retryOperation env.storeTranscriptOp "transcript_storage" 3).result = .ok ts)
    (hsa : (retryOperation env.storeAnalysisOp "analysis_storage" 3).result = .ok an)
    (huc : env.updCompleted = .ok ()) :
    (∃ fin, (processAudioFile env c).2 = .ok fin ∧
      fin.pipeline_status = "completed" ∧
      fin.transcription_text_length = 0) ∧
    statusOf (processAudioFile env c).1.tracker c "transcription" = some "completed" ∧
    statusOf (processAudioFile env c).1.tracker c "database_storage" = some "completed" ∧
    resultOf (processAudioFile env c).1.tracker c "transcription" =
      some (.transcription ⟨⟨false, none, none, some "Transcription disabled (env flag)"⟩,
        env.saveTranscript, "", "unknown"⟩) := by
  have htr : transcriptionTry env =
      .ok ⟨⟨false, none, none, some "Transcription disabled (env flag)"⟩,
        env.saveTranscript, "", "unknown"⟩ := by
    simp [transcriptionTry, hp, htu, hdis, transcribeAudio, retryOperation, retryFromAux,
      Bind.bind, Except.bind, Pure.pure, Except.pure]
  have hs4 : storageTry env = .ok ⟨ts, an⟩ := by
    simp [storageTry, hst, hsa, huc, Bind.bind, Except.bind, Pure.pure, Except.pure]
  obtain ⟨hsnd0, _, _, _⟩ := runStep_ok "upload" (uploadTry env) env.updFailedUpload
    .upload (fun pd r => setA c r.file_path pd) c initState r1 hu
  cases hS0 : stepUpload env c initState with
  | mk stA resA =>
    rw [stepUpload] at hS0
    rw [hS0] at hsnd0
    dsimp only at hsnd0
    subst hsnd0
    obtain ⟨hsnd1, _, _, _⟩ := runStep_ok "audio_processing" (audioTry env)
      env.updFailedProcessing .audio
      (fun pd r => if (lookupA c pd).isSome then setA c r.processed_file_path pd else pd)
      c stA r2 ha
    cases hS1 : stepAudioProcessing env c stA with
    | mk stB resB =>
      rw [stepAudioProcessing] at hS1
      rw [hS1] at hsnd1
      dsimp only at hsnd1
      subst hsnd1
      obtain ⟨hsnd2, htrC, _, _⟩ := runStep_ok "transcription" (transcriptionTry env)
        env.updFailedTranscription .transcription (fun pd _ => pd) c stB _ htr
      cases hS2 : stepTranscription env c stB with
      | mk stC resC =>
        rw [stepTranscription] at hS2
        rw [hS2] at hsnd2 htrC
        dsimp only at hsnd2 htrC
        subst hsnd2
        obtain ⟨hsnd3, htrD, _, _⟩ := runStep_ok "database_storage" (storageTry env)
          env.updFailedStorage .storage (fun pd _ => pd) c stC _ hs4
        cases hS3 : stepDatabaseStorage env c stC with
        | mk stD resD =>
          rw [stepDatabaseStorage] at hS3
          rw [hS3] at hsnd3 htrD
          dsimp only at hsnd3 htrD
          subst hsnd3
          simp only [processAudioFile, stepUpload, hS0, stepAudioProcessing, hS1,
            stepTranscription, hS2, stepDatabaseStorage, hS3]
          have hne : ¬(c = c ∧ "transcription" = "database_storage") :=
            fun hx => absurd hx.2 (by decide)
          have hT2 : statusOf stC.tracker c "transcription" = some "completed" := by
            rw [htrC]
            exact statusOf_completeStep_self _ c "transcription" _ _ "running"
              (statusOf_startStep_self _ c "transcription" _)
          have hT4 : statusOf stD.tracker c "transcription" = some "completed" := by
            rw [htrD]
            rw [statusOf_completeStep_ne _ c "database_storage" _ _ c "transcription" hne]
            rw [statusOf_startStep_ne _ c "database_storage" _ c "transcription" hne]
            exact hT2
          have hT4db : statusOf stD.tracker c "database_storage" = some "completed" := by
            rw [htrD]
            exact statusOf_completeStep_self _ c "database_storage" _ _ "running"
              (statusOf_startStep_self _ c "database_storage" _)
          have hR2 : resultOf stC.tracker c "transcription" =
              some (.transcription ⟨⟨false, none, none,
                some "Transcription disabled (env flag)"⟩,
                env.saveTranscript, "", "unknown"⟩) := by
            rw [htrC]
            exact resultOf_completeStep_self _ c "transcription" _ _ "running"
              (statusOf_startStep_self _ c "transcription" _)
          have hR4 : resultOf stD.tracker c "transcription" =
              some (.transcription ⟨⟨false, none, none,
                some "Transcription disabled (env flag)"⟩,
                env.saveTranscript, "", "unknown"⟩) := by
            rw [htrD]
            rw [resultOf_completeStep_ne _ c "database_storage" _ _ c "transcription" hne]
            rw [resultOf_startStep_present _ c "database_storage" _ c "transcription"
              (statusOf_isSome_outer stC.tracker c "transcription" "completed" hT2)]
            exact hR2
          exact ⟨⟨_, rfl, rfl, rfl⟩, hT4, hT4db, hR4⟩

/-- A concrete collaborator environment in which upload and audio
processing succeed, the transcription engine raises on every attempt, and
the status update inside `_handle_pipeline_error` itself fails. -/
def envEngineDown : PipelineEnv :=
  { transcriptionEnabled := true
    validate := .ok ⟨true, "", "wav, 3s"⟩
    saveFile := .ok "uploads/a.wav"
    createRecord := .ok ()
    updUploaded := .ok ()
    getFilePath := .ok "uploads/a.wav"
    updProcessing := .ok ()
    analyzeOp := fun _ => .ok "analysis"
    convertOp := fun _ => .ok ⟨some "uploads/processed/a_converted.wav"⟩
    segmentOp := fun _ => .ok "segments"
    getProcessedPath := .ok "uploads/processed/a_converted.wav"
    updTranscribing := .ok ()
    engineOp := fun _ => .error ⟨"RuntimeError", "Whisper model failed to load"⟩
    saveTranscript := ⟨true, some "t.json", none⟩
    storeTranscriptOp := fun _ => .ok ⟨true⟩
    storeAnalysisOp := fun _ => .ok ⟨true⟩
    updCompleted := .ok ()
    updFailedUpload := .ok ()
    updFailedProcessing := .ok ()
    updFailedTranscription := .ok ()
    updFailedStorage := .ok ()
    updFailedHandler := .error ⟨"OperationalError", "db down"⟩ }

/-- Witness for C1: with the engine raising on every attempt, the
transcription step is the first to fail; `process_audio_file` re-raises the
engine error even though the handler's own status update raised, the
transcription step is marked failed, both failed-status updates were
attempted, and the handler's update failure was logged. -/
theorem pipeline_error_propagation_witness :
    (processAudioFile envEngineDown "c1").2 =
      .error ⟨"RuntimeError", "Whisper model failed to load"⟩ ∧
    statusOf (processAudioFile envEngineDown "c1").1.tracker "c1" (stepName 2) =
      some "failed" ∧
    (stepName 2, (stepUpdFailed envEngineDown 2).isOk) ∈
      (processAudioFile envEngineDown "c1").1.statusFailedCalls ∧
    ("handler", envEngineDown.updFailedHandler.isOk) ∈
      (processAudioFile envEngineDown "c1").1.statusFailedCalls ∧
    (envEngineDown.updFailedHandler.isOk = false →
      (processAudioFile envEngineDown "c1").1.handlerFailureLogged = true) :=
  pipeline_error_propagation envEngineDown "c1" 2
    ⟨"RuntimeError", "Whisper model failed to load"⟩ (by decide) (by decide)

/-- The same environment with the transcription feature flag off and the
persistence layer healthy. -/
def envFlagOff : PipelineEnv :=
  { envEngineDown with
    transcriptionEnabled := false
    updFailedHandler := .ok () }

/-- Witness for C9: with the flag off, the run completes, the transcription
and storage steps both read `"completed"`, the stored transcription result
carries `success=false` with the disabled-engine message, and the final
summary's transcript length is 0. -/
theorem disabled_engine_degrades_gracefully_witness :
    ((∃ fin, (processAudioFile envFlagOff "c2").2 = .ok fin ∧
      fin.pipeline_status = "completed" ∧
      fin.transcription_text_length = 0) ∧
    statusOf (processAudioFile envFlagOff "c2").1.tracker "c2" "transcription" =
      some "completed" ∧
    statusOf (processAudioFile envFlagOff "c2").1.tracker "c2" "database_storage" =
      some "completed" ∧
    resultOf (processAudioFile envFlagOff "c2").1.tracker "c2" "transcription" =
      some (.transcription ⟨⟨false, none, none, some "Transcription disabled (env flag)"⟩,
        envFlagOff.saveTranscript, "", "unknown"⟩)) :=
  disabled_engine_degrades_gracefully envFlagOff "c2"
    ⟨"uploads/a.wav", "wav, 3s"⟩
    ⟨"analysis", ⟨some "uploads/processed/a_converted.wav"⟩, "segments",
      "uploads/processed/a_converted.wav"⟩
    "uploads/processed/a_converted.wav" ⟨true⟩ ⟨true⟩
    (by decide) (by decide) (by decide) (by decide) (by decide) (by decide) (by decide)
    (by decide)
